import Mathlib

/-! # azqr service analyzers: CosmosDB and SignalR

A shallow embedding of `cmd/azqr/analyzers/cosmosdb_analyzer.go` and
`cmd/azqr/analyzers/sigr_analyzer.go`, followed by theorems about the two
`Review` methods.

Conventions of the embedding

* A Go pointer `*T` is `Option T`; `none` is the nil pointer.  Dereferencing
  nil is a run-time panic, which the model makes an explicit outcome
  (`Abort.panic`, `ReviewReturn.panicked`).
* A Go `error` value is `Option Error`; `none` is the nil error.
* A Go slice that is only ranged over or measured with `len` is a `List`
  (a nil slice and an empty slice behave alike under both).  The slice that
  `Review` returns is `Option (List _)`, so that the nil slice returned next
  to an error is told apart from the empty slice `[]AzureServiceResult{}`.
* A Go `string` is a Lean `String`, that is, text in valid UTF-8; on such
  strings the prefix and substring tests by characters agree with the tests
  by bytes of the Go library.
* The Go field `Type` is spelled `Type_`, `Type` being reserved in Lean.
* The collaborators reached through the network (the pager of the Azure
  client, the listing hook, the diagnostics checker) are functions of their
  arguments.  `log.Printf` only writes a progress line and is left out.
-/

/-- The Go `error` interface, reduced to its message. -/
abbrev Error := String

/-! ## Go standard library: package `strings` -/

namespace strings

/-- Go `strings.HasPrefix`:
`len(s) >= len(prefix) && s[:len(prefix)] == prefix`. -/
def HasPrefix (s pfx : String) : Bool :=
  decide (s.toList.length ≥ pfx.toList.length) &&
    decide (s.toList.take pfx.toList.length = pfx.toList)

/-- Go `strings.Contains`: `substr` occurs in `s` starting at some offset
(`Index(s, substr) >= 0`). -/
def Contains (s substr : String) : Bool :=
  s.toList.tails.any (fun t => substr.toList.isPrefixOf t)

end strings

/-! ## Azure SDK types (the fields the analyzers read) -/

namespace armcosmos

/-- Go `armcosmos.Location`: one deployment region of a database account. -/
structure Location where
  LocationName : Option String
  IsZoneRedundant : Option Bool
  deriving DecidableEq, Repr

/-- Go `armcosmos.PrivateEndpointConnection`. -/
structure PrivateEndpointConnection where
  ID : Option String
  Name : Option String
  deriving DecidableEq, Repr

/-- Go `armcosmos.DatabaseAccountGetProperties`. -/
structure DatabaseAccountGetProperties where
  DatabaseAccountOfferType : Option String
  Locations : List (Option Location)
  PrivateEndpointConnections : List (Option PrivateEndpointConnection)
  deriving DecidableEq, Repr

/-- Go `armcosmos.DatabaseAccountGetResults`: a database account as listed. -/
structure DatabaseAccountGetResults where
  ID : Option String
  Name : Option String
  Type_ : Option String
  Location : Option String
  Properties : Option DatabaseAccountGetProperties
  deriving DecidableEq, Repr

end armcosmos

namespace armsignalr

/-- Go `armsignalr.ResourceSKU`. -/
structure ResourceSKU where
  Name : Option String
  deriving DecidableEq, Repr

/-- Go `armsignalr.PrivateEndpointConnection`. -/
structure PrivateEndpointConnection where
  ID : Option String
  Name : Option String
  deriving DecidableEq, Repr

/-- Go `armsignalr.Properties`. -/
structure Properties where
  PrivateEndpointConnections : List (Option PrivateEndpointConnection)
  deriving DecidableEq, Repr

/-- Go `armsignalr.ResourceInfo`: a SignalR resource as listed. -/
structure ResourceInfo where
  ID : Option String
  Name : Option String
  Type_ : Option String
  Location : Option String
  SKU : Option ResourceSKU
  Properties : Option Properties
  deriving DecidableEq, Repr

end armsignalr

/-! ## Package `analyzers`: shared declarations -/

/-- One page of a list operation as `pager.NextPage` hands it back: the
values of the page and the error of the call. -/
structure Page (α : Type) where
  Value : List (Option α)
  err : Option Error

/-- The diagnostics checker used by both analyzers.  The Go type is declared
in another file of the package; the analyzers only call
`HasDiagnostics(resourceId) (bool, error)`. -/
structure DiagnosticsSettings where
  HasDiagnostics : String → Bool × Option Error

/-- Go `AzureBaseServiceResult`, with the fields the analyzers fill in. -/
structure AzureBaseServiceResult where
  SubscriptionId : String
  ResourceGroup : String
  ServiceName : String
  Sku : String
  Sla : String
  Type_ : String
  Location : String
  CAFNaming : Bool
  deriving DecidableEq, Repr

/-- Go `AzureServiceResult`; the base result is an embedded struct. -/
structure AzureServiceResult extends AzureBaseServiceResult where
  AvailabilityZones : Bool
  PrivateEndpoints : Bool
  DiagnosticSettings : Bool
  deriving DecidableEq, Repr

/-- Why the body of a `Review` loop stops the whole call: a `return nil, err`
or a nil dereference. -/
inductive Abort where
  | err (e : Error)
  | panic
  deriving DecidableEq, Repr

/-- What a call of `Review` does: it returns the pair `(results, err)`, or it
panics on a nil dereference. -/
inductive ReviewReturn where
  | returned (results : Option (List AzureServiceResult)) (err : Option Error)
  | panicked
  deriving DecidableEq, Repr

/-- The loop `for pager.More() { resp, err := pager.NextPage(ctx); ... }` of
`listDatabases` and `listSignalR`, over the pages the pager still holds, with
the slice accumulated so far. -/
def pagerLoop {α : Type} :
    List (Page α) → List (Option α) → Option (List (Option α)) × Option Error
  | [], acc => (some acc, none)
  | resp :: rest, acc =>
    match resp.err with
    | some e => (none, some e)
    | none => pagerLoop rest (acc ++ resp.Value)

/-! ## `cosmosdb_analyzer.go` -/

/-- Go `CosmosDBAnalyzer`.  `databasesClient` stands for
`databasesClient.NewListByResourceGroupPager`: the pages the pager yields for
a resource group.  The context and the credential are not read by `Review`
beyond being handed to the client. -/
structure CosmosDBAnalyzer where
  diagnosticsSettings : DiagnosticsSettings
  subscriptionId : String
  databasesClient : String → List (Page armcosmos.DatabaseAccountGetResults)
  listDatabasesFunc :
    Option (String → Option (List (Option armcosmos.DatabaseAccountGetResults)) × Option Error)

/-- The local variables of the location loop in `CosmosDBAnalyzer.Review`.
`numberOfLocations` is a Go `int`; it counts the elements of a slice and so
stays below the wrap-around of the machine integer. -/
structure ZoneVars where
  sla : String
  availabilityZones : Bool
  availabilityZonesNotEnabledInALocation : Bool
  numberOfLocations : Nat
  deriving DecidableEq, Repr

namespace CosmosDBAnalyzer

/-- Lines 51-54: the variables before the location loop. -/
def zoneInit : ZoneVars :=
  { sla := "99.99%", availabilityZones := false,
    availabilityZonesNotEnabledInALocation := false, numberOfLocations := 0 }

/-- Lines 55-63: `for _, location := range database.Properties.Locations`. -/
def locationLoop : List (Option armcosmos.Location) → ZoneVars → Except Abort ZoneVars
  | [], v => .ok v
  | location :: rest, v =>
    match location with
    | none => .error .panic
    | some location =>
      match location.IsZoneRedundant with
      | none => .error .panic
      | some isZoneRedundant =>
        let v := { v with numberOfLocations := v.numberOfLocations + 1 }
        if isZoneRedundant then
          locationLoop rest { v with availabilityZones := true, sla := "99.995%" }
        else
          locationLoop rest { v with availabilityZonesNotEnabledInALocation := true }

/-- Lines 65-67: the top tier. -/
def topTier (v : ZoneVars) : ZoneVars :=
  if v.availabilityZones && decide (v.numberOfLocations ≥ 2) &&
      !v.availabilityZonesNotEnabledInALocation then
    { v with sla := "99.999%" }
  else v

/-- Lines 51-67: the SLA and zone derivation for one location slice. -/
def zoneRule (locations : List (Option armcosmos.Location)) : Except Abort ZoneVars :=
  match locationLoop locations zoneInit with
  | .error a => .error a
  | .ok v => .ok (topTier v)

/-- Lines 46-82: the body of the loop over the listed databases, for one
element of the slice.  `parseLocation` is a function of the package declared
in another file; `none` is a panic inside it. -/
def reviewDatabase (parseLocation : Option String → Option String)
    (c : CosmosDBAnalyzer) (resourceGroupName : String)
    (database : Option armcosmos.DatabaseAccountGetResults) :
    Except Abort AzureServiceResult :=
  match database with
  | none => .error .panic
  | some database =>
  match database.ID with
  | none => .error .panic
  | some id =>
  match c.diagnosticsSettings.HasDiagnostics id with
  | (_, some err) => .error (.err err)
  | (hasDiagnostics, none) =>
  match database.Properties with
  | none => .error .panic
  | some properties =>
  match zoneRule properties.Locations with
  | .error a => .error a
  | .ok v =>
  match database.Name with
  | none => .error .panic
  | some name =>
  match properties.DatabaseAccountOfferType with
  | none => .error .panic
  | some offerType =>
  match database.Type_ with
  | none => .error .panic
  | some type =>
  match parseLocation database.Location with
  | none => .error .panic
  | some location =>
    .ok
      { SubscriptionId := c.subscriptionId
        ResourceGroup := resourceGroupName
        ServiceName := name
        Sku := offerType
        Sla := v.sla
        Type_ := type
        Location := location
        CAFNaming := strings.HasPrefix name "cosmos"
        AvailabilityZones := v.availabilityZones
        PrivateEndpoints := decide (properties.PrivateEndpointConnections.length > 0)
        DiagnosticSettings := hasDiagnostics }

/-- Lines 44-84: `results := []AzureServiceResult{}`, the loop over the
databases appending one record per element, and `return results, nil`. -/
def reviewLoop (parseLocation : Option String → Option String)
    (c : CosmosDBAnalyzer) (resourceGroupName : String) :
    List (Option armcosmos.DatabaseAccountGetResults) → List AzureServiceResult → ReviewReturn
  | [], results => .returned (some results) none
  | database :: rest, results =>
    match reviewDatabase parseLocation c resourceGroupName database with
    | .error (.err e) => .returned none (some e)
    | .error .panic => .panicked
    | .ok r => reviewLoop parseLocation c resourceGroupName rest (results ++ [r])

/-- Go `CosmosDBAnalyzer.listDatabases`. -/
def listDatabases (c : CosmosDBAnalyzer) (resourceGroupName : String) :
    Option (List (Option armcosmos.DatabaseAccountGetResults)) × Option Error :=
  match c.listDatabasesFunc with
  | none => pagerLoop (c.databasesClient resourceGroupName) []
  | some f => f resourceGroupName

/-- Go `CosmosDBAnalyzer.Review`. -/
def Review (parseLocation : Option String → Option String)
    (c : CosmosDBAnalyzer) (resourceGroupName : String) : ReviewReturn :=
  match c.listDatabases resourceGroupName with
  | (_, some err) => .returned none (some err)
  | (databases, none) =>
    reviewLoop parseLocation c resourceGroupName (databases.getD []) []

end CosmosDBAnalyzer

/-! ## `sigr_analyzer.go` -/

/-- Go `SignalRAnalyzer`.  `signalrClient` stands for
`signalrClient.NewListByResourceGroupPager`: the pages the pager yields for a
resource group. -/
structure SignalRAnalyzer where
  diagnosticsSettings : DiagnosticsSettings
  subscriptionId : String
  signalrClient : String → List (Page armsignalr.ResourceInfo)
  listSignalRFunc :
    Option (String → Option (List (Option armsignalr.ResourceInfo)) × Option Error)

namespace SignalRAnalyzer

/-- Lines 47-71: the body of the loop over the listed SignalR resources, for
one element of the slice.  `parseLocation` is a function of the package
declared in another file; `none` is a panic inside it. -/
def reviewSignalR (parseLocation : Option String → Option String)
    (c : SignalRAnalyzer) (resourceGroupName : String)
    (signalr : Option armsignalr.ResourceInfo) : Except Abort AzureServiceResult :=
  match signalr with
  | none => .error .panic
  | some signalr =>
  match signalr.ID with
  | none => .error .panic
  | some id =>
  match c.diagnosticsSettings.HasDiagnostics id with
  | (_, some err) => .error (.err err)
  | (hasDiagnostics, none) =>
  match signalr.SKU with
  | none => .error .panic
  | some skuRef =>
  match skuRef.Name with
  | none => .error .panic
  | some sku =>
  let zones := if strings.Contains sku "Premium" then true else false
  match signalr.Name with
  | none => .error .panic
  | some name =>
  match signalr.Type_ with
  | none => .error .panic
  | some type =>
  match parseLocation signalr.Location with
  | none => .error .panic
  | some location =>
  match signalr.Properties with
  | none => .error .panic
  | some properties =>
    .ok
      { SubscriptionId := c.subscriptionId
        ResourceGroup := resourceGroupName
        ServiceName := name
        Sku := sku
        Sla := "99.9%"
        Type_ := type
        Location := location
        CAFNaming := strings.HasPrefix name "sigr"
        AvailabilityZones := zones
        PrivateEndpoints := decide (properties.PrivateEndpointConnections.length > 0)
        DiagnosticSettings := hasDiagnostics }

/-- Lines 45-73: `results := []AzureServiceResult{}`, the loop over the
resources appending one record per element, and `return results, nil`. -/
def reviewLoop (parseLocation : Option String → Option String)
    (c : SignalRAnalyzer) (resourceGroupName : String) :
    List (Option armsignalr.ResourceInfo) → List AzureServiceResult → ReviewReturn
  | [], results => .returned (some results) none
  | signalr :: rest, results =>
    match reviewSignalR parseLocation c resourceGroupName signalr with
    | .error (.err e) => .returned none (some e)
    | .error .panic => .panicked
    | .ok r => reviewLoop parseLocation c resourceGroupName rest (results ++ [r])

/-- Go `SignalRAnalyzer.listSignalR`. -/
def listSignalR (c : SignalRAnalyzer) (resourceGroupName : String) :
    Option (List (Option armsignalr.ResourceInfo)) × Option Error :=
  match c.listSignalRFunc with
  | none => pagerLoop (c.signalrClient resourceGroupName) []
  | some f => f resourceGroupName

/-- Go `SignalRAnalyzer.Review`. -/
def Review (parseLocation : Option String → Option String)
    (c : SignalRAnalyzer) (resourceGroupName : String) : ReviewReturn :=
  match c.listSignalR resourceGroupName with
  | (_, some err) => .returned none (some err)
  | (signalr, none) =>
    reviewLoop parseLocation c resourceGroupName (signalr.getD []) []

end SignalRAnalyzer

/-! ## Vocabulary of the statements -/

/-- The zone-redundancy flags of a location slice, element by element; `none`
where the element or its flag is a nil pointer. -/
def armcosmos.zoneFlags (locations : List (Option armcosmos.Location)) : List (Option Bool) :=
  locations.map (fun l => l.bind (fun x => x.IsZoneRedundant))

/-- The order of the SLA tiers of the CosmosDB rule:
"99.99%" < "99.995%" < "99.999%", as positions 0, 1, 2. -/
def slaRank (sla : String) : Option Nat :=
  if sla = "99.99%" then some 0
  else if sla = "99.995%" then some 1
  else if sla = "99.999%" then some 2
  else none

/-- The CosmosDB SLA rule in the words of the specification, over the list of
zone-redundancy flags of a database: the top tier when there are at least two
locations and all are zone-redundant, else the middle tier when some location
is zone-redundant, else the baseline. -/
def CosmosDBAnalyzer.specSla (L : List Bool) : String :=
  if 2 ≤ L.length ∧ (∀ b ∈ L, b = true) then "99.999%"
  else if (∃ b ∈ L, b = true) then "99.995%"
  else "99.99%"

/-- The generic shape of the two `Review` loops: run a body on each element in
order, append its record, stop at the first abort. -/
def collectLoop {α : Type} (body : α → Except Abort AzureServiceResult) :
    List α → List AzureServiceResult → ReviewReturn
  | [], results => .returned (some results) none
  | x :: rest, results =>
    match body x with
    | .error (.err e) => .returned none (some e)
    | .error .panic => .panicked
    | .ok r => collectLoop body rest (results ++ [r])

/-- A listed database account is well formed when every pointer that `Review`
dereferences on it is non-nil (the identifier, the name, the resource type, the
properties, the offer type, each location and its zone-redundancy flag) and
`parseLocation` returns on its location. -/
def armcosmos.DatabaseAccountGetResults.wellFormed
    (parseLocation : Option String → Option String)
    (db : armcosmos.DatabaseAccountGetResults) : Bool :=
  db.ID.isSome && db.Name.isSome && db.Type_.isSome && (parseLocation db.Location).isSome &&
    (match db.Properties with
     | none => false
     | some p =>
       p.DatabaseAccountOfferType.isSome &&
         p.Locations.all (fun l =>
           match l with
           | none => false
           | some x => x.IsZoneRedundant.isSome))

/-- A listed SignalR resource is well formed when every pointer that `Review`
dereferences on it is non-nil (the identifier, the name, the resource type, the
SKU and its name, the properties) and `parseLocation` returns on its
location. -/
def armsignalr.ResourceInfo.wellFormed
    (parseLocation : Option String → Option String)
    (s : armsignalr.ResourceInfo) : Bool :=
  s.ID.isSome && s.Name.isSome && s.Type_.isSome && (parseLocation s.Location).isSome &&
    s.Properties.isSome &&
    (match s.SKU with
     | none => false
     | some sku => sku.Name.isSome)

/-! ## Concrete inputs, for evaluating the definitions -/

/-- A stand-in for the package function `parseLocation`: it hands back the
region it is given and panics on a nil pointer. -/
def sampleParseLocation : Option String → Option String := fun l => l

/-- A diagnostics checker that answers without error: `true` exactly for the
identifier "/db/b". -/
def sampleChecker : DiagnosticsSettings :=
  { HasDiagnostics := fun id => (decide (id = "/db/b"), none) }

/-- A deployment location with the given zone-redundancy flag. -/
def sampleLocation (z : Bool) : Option armcosmos.Location :=
  some { LocationName := some "westeurope", IsZoneRedundant := some z }

/-- The properties of a sample database account with the given location
flags. -/
def sampleProperties (flags : List Bool) : armcosmos.DatabaseAccountGetProperties :=
  { DatabaseAccountOfferType := some "Standard"
    Locations := flags.map sampleLocation
    PrivateEndpointConnections := [] }

/-- A database account with the given identifier, name and location flags. -/
def sampleAccount (id name : String) (flags : List Bool) : armcosmos.DatabaseAccountGetResults :=
  { ID := some id
    Name := some name
    Type_ := some "Microsoft.DocumentDB/databaseAccounts"
    Location := some "westeurope"
    Properties := some (sampleProperties flags) }

/-- A pointer to a sample database account, as the listing holds it. -/
def sampleDatabase (id name : String) (flags : List Bool) :
    Option armcosmos.DatabaseAccountGetResults :=
  some (sampleAccount id name flags)

/-- Four database accounts: one location without zones; two locations, both
zone-redundant; three locations of which the last is not zone-redundant; one
location, zone-redundant. -/
def sampleDatabases : List (Option armcosmos.DatabaseAccountGetResults) :=
  [ sampleDatabase "/db/a" "Cosmos-db1" [false],
    sampleDatabase "/db/b" "cosmos-db1" [true, true],
    sampleDatabase "/db/c" "cosmos-db2" [true, true, false],
    sampleDatabase "/db/d" "mycosmos" [true] ]

/-- A CosmosDB analyzer whose listing hook returns the given slice and error. -/
def sampleCosmos (dbs : Option (List (Option armcosmos.DatabaseAccountGetResults)))
    (err : Option Error) : CosmosDBAnalyzer :=
  { diagnosticsSettings := sampleChecker
    subscriptionId := "sub-1"
    databasesClient := fun _ => []
    listDatabasesFunc := some (fun _ => (dbs, err)) }

/-- The record `Review` builds for a sample database. -/
def sampleRecord (name sla : String) (caf zones diag : Bool) : AzureServiceResult :=
  { SubscriptionId := "sub-1"
    ResourceGroup := "rg"
    ServiceName := name
    Sku := "Standard"
    Sla := sla
    Type_ := "Microsoft.DocumentDB/databaseAccounts"
    Location := "westeurope"
    CAFNaming := caf
    AvailabilityZones := zones
    PrivateEndpoints := false
    DiagnosticSettings := diag }

/-- The records of `Review` over `sampleDatabases`. -/
def sampleRecords : List AzureServiceResult :=
  [ sampleRecord "Cosmos-db1" "99.99%" false false false,
    sampleRecord "cosmos-db1" "99.999%" true true true,
    sampleRecord "cosmos-db2" "99.995%" true true false,
    sampleRecord "mycosmos" "99.995%" false true false ]

/-- A SignalR resource with the given identifier, name and SKU name. -/
def sampleResourceInfo (id name sku : String) : armsignalr.ResourceInfo :=
  { ID := some id
    Name := some name
    Type_ := some "Microsoft.SignalRService/SignalR"
    Location := some "westeurope"
    SKU := some { Name := some sku }
    Properties := some { PrivateEndpointConnections := [] } }

/-- A pointer to a sample SignalR resource, as the listing holds it. -/
def sampleSignalR (id name sku : String) : Option armsignalr.ResourceInfo :=
  some (sampleResourceInfo id name sku)

/-- Two SignalR resources: a premium one and a free one. -/
def sampleSignalRs : List (Option armsignalr.ResourceInfo) :=
  [ sampleSignalR "/db/b" "sigr-chat" "Premium_P1",
    sampleSignalR "/sigr/2" "Sigr-chat" "Free_F1" ]

/-- A SignalR analyzer whose listing hook returns the given slice and error. -/
def sampleSignalRAnalyzer (rs : Option (List (Option armsignalr.ResourceInfo)))
    (err : Option Error) : SignalRAnalyzer :=
  { diagnosticsSettings := sampleChecker
    subscriptionId := "sub-1"
    signalrClient := fun _ => []
    listSignalRFunc := some (fun _ => (rs, err)) }

/-- The record `Review` builds for a sample SignalR resource. -/
def sampleSignalRRecord (name sku : String) (caf zones diag : Bool) : AzureServiceResult :=
  { SubscriptionId := "sub-1"
    ResourceGroup := "rg"
    ServiceName := name
    Sku := sku
    Sla := "99.9%"
    Type_ := "Microsoft.SignalRService/SignalR"
    Location := "westeurope"
    CAFNaming := caf
    AvailabilityZones := zones
    PrivateEndpoints := false
    DiagnosticSettings := diag }

/-- The records of `Review` over `sampleSignalRs`. -/
def sampleSignalRRecords : List AzureServiceResult :=
  [ sampleSignalRRecord "sigr-chat" "Premium_P1" true true true,
    sampleSignalRRecord "Sigr-chat" "Free_F1" false false false ]

/-- A diagnostics checker that fails on the identifiers "/db/c", "/db/d" and
"/sigr/2", each with its own error, and answers `false` without error
elsewhere. -/
def failingChecker : DiagnosticsSettings :=
  { HasDiagnostics := fun id =>
      if id = "/db/c" then (false, some "lookup failed")
      else if id = "/db/d" then (false, some "second failure")
      else if id = "/sigr/2" then (false, some "signalr lookup failed")
      else (false, none) }

/-- A private-endpoint connection reference. -/
def sampleEndpoint : Option armcosmos.PrivateEndpointConnection :=
  some { ID := some "/pe/1", Name := some "pe-1" }

/-- A database account with the given identifier, name, location flags and
private-endpoint connections. -/
def sampleAccountWithEndpoints (id name : String) (flags : List Bool)
    (connections : List (Option armcosmos.PrivateEndpointConnection)) :
    armcosmos.DatabaseAccountGetResults :=
  { ID := some id
    Name := some name
    Type_ := some "Microsoft.DocumentDB/databaseAccounts"
    Location := some "westeurope"
    Properties := some { DatabaseAccountOfferType := some "Standard"
                         Locations := flags.map sampleLocation
                         PrivateEndpointConnections := connections } }

/-- A second listing: an account with three locations, the first of which is
not zone-redundant, and two private-endpoint connection references, one of
them a nil pointer; and an account with three zone-redundant locations. -/
def sampleDatabases2 : List (Option armcosmos.DatabaseAccountGetResults) :=
  [ some (sampleAccountWithEndpoints "/db/e" "cosmos-e" [false, true, true]
      [sampleEndpoint, none]),
    sampleDatabase "/db/f" "cosmos-f" [true, true, true] ]

/-- The records of `Review` over `sampleDatabases2`. -/
def sampleRecords2 : List AzureServiceResult :=
  [ { sampleRecord "cosmos-e" "99.995%" true true false with PrivateEndpoints := true },
    sampleRecord "cosmos-f" "99.999%" true true false ]

/-- A diagnostics checker that answers `true` without error on every
identifier. -/
def sampleCheckerTrue : DiagnosticsSettings :=
  { HasDiagnostics := fun _ => (true, none) }

/-! ## Lemmas on the location loop -/

theorem CosmosDBAnalyzer.locationLoop_flags (L : List Bool) :
    ∀ (locations : List (Option armcosmos.Location)) (v : ZoneVars),
      armcosmos.zoneFlags locations = L.map some →
      CosmosDBAnalyzer.locationLoop locations v = .ok
        { sla := if L.any id then "99.995%" else v.sla
          availabilityZones := v.availabilityZones || L.any id
          availabilityZonesNotEnabledInALocation :=
            v.availabilityZonesNotEnabledInALocation || L.any (fun b => !b)
          numberOfLocations := v.numberOfLocations + L.length } := by
  induction L with
  | nil =>
    intro locations v h
    cases locations with
    | nil => simp [CosmosDBAnalyzer.locationLoop]
    | cons l ls => simp [armcosmos.zoneFlags] at h
  | cons b L ih =>
    intro locations v h
    cases locations with
    | nil => simp [armcosmos.zoneFlags] at h
    | cons l ls =>
      simp only [armcosmos.zoneFlags, List.map_cons, List.cons.injEq] at h
      obtain ⟨hl, hls⟩ := h
      cases l with
      | none => simp at hl
      | some loc =>
        simp only [Option.some_bind] at hl
        cases b with
        | true =>
          simp only [CosmosDBAnalyzer.locationLoop, hl, if_true]
          rw [ih ls _ hls]
          simp [Nat.add_assoc, Nat.add_comm 1]
        | false =>
          simp only [CosmosDBAnalyzer.locationLoop, hl, Bool.false_eq_true, if_false]
          rw [ih ls _ hls]
          simp [Nat.add_assoc, Nat.add_comm 1]

theorem CosmosDBAnalyzer.locationLoop_ok_flags :
    ∀ (locations : List (Option armcosmos.Location)) (v w : ZoneVars),
      CosmosDBAnalyzer.locationLoop locations v = .ok w →
      ∃ L : List Bool, armcosmos.zoneFlags locations = L.map some := by
  intro locations
  induction locations with
  | nil => intro v w _; exact ⟨[], rfl⟩
  | cons l ls ih =>
    intro v w h
    cases l with
    | none => simp [CosmosDBAnalyzer.locationLoop] at h
    | some loc =>
      cases hz : loc.IsZoneRedundant with
      | none => simp [CosmosDBAnalyzer.locationLoop, hz] at h
      | some b =>
        simp only [CosmosDBAnalyzer.locationLoop, hz] at h
        cases b with
        | true =>
          simp only [if_true] at h
          obtain ⟨L, hL⟩ := ih _ _ h
          exact ⟨true :: L, by simp [armcosmos.zoneFlags, hz] at hL ⊢; exact hL⟩
        | false =>
          simp only [Bool.false_eq_true, if_false] at h
          obtain ⟨L, hL⟩ := ih _ _ h
          exact ⟨false :: L, by simp [armcosmos.zoneFlags, hz] at hL ⊢; exact hL⟩

theorem CosmosDBAnalyzer.zoneRule_flags (locations : List (Option armcosmos.Location))
    (L : List Bool) (h : armcosmos.zoneFlags locations = L.map some) :
    CosmosDBAnalyzer.zoneRule locations = .ok
      { sla := CosmosDBAnalyzer.specSla L
        availabilityZones := L.any id
        availabilityZonesNotEnabledInALocation := L.any (fun b => !b)
        numberOfLocations := L.length } := by
  have hall : (∀ b ∈ L, b = true) ↔ false ∉ L := by
    constructor
    · intro hb hm
      exact absurd (hb false hm) (by decide)
    · intro hm b hb
      cases b with
      | true => rfl
      | false => exact absurd hb hm
  have hex : (∃ b ∈ L, b = true) ↔ true ∈ L := by
    constructor
    · rintro ⟨b, hb, rfl⟩
      exact hb
    · intro hm
      exact ⟨true, hm, rfl⟩
  have hlen : false ∉ L → 2 ≤ L.length → true ∈ L := by
    intro hm h2
    cases L with
    | nil => simp at h2
    | cons b L =>
      cases b with
      | true => simp
      | false => simp at hm
  simp only [CosmosDBAnalyzer.zoneRule, CosmosDBAnalyzer.locationLoop_flags L locations _ h,
    CosmosDBAnalyzer.zoneInit, CosmosDBAnalyzer.topTier, CosmosDBAnalyzer.specSla,
    Bool.false_or, Nat.zero_add, hall, hex]
  by_cases h2 : 2 ≤ L.length <;> by_cases hf : false ∈ L <;> by_cases ht : true ∈ L <;>
    simp [h2, hf, ht]
  exact absurd (hlen hf h2) ht

theorem CosmosDBAnalyzer.zoneRule_ok_flags (locations : List (Option armcosmos.Location))
    (v : ZoneVars) (h : CosmosDBAnalyzer.zoneRule locations = .ok v) :
    ∃ L : List Bool, armcosmos.zoneFlags locations = L.map some := by
  unfold CosmosDBAnalyzer.zoneRule at h
  cases hl : CosmosDBAnalyzer.locationLoop locations CosmosDBAnalyzer.zoneInit with
  | error a => rw [hl] at h; cases h
  | ok w => exact CosmosDBAnalyzer.locationLoop_ok_flags locations _ w hl

/-! ## Lemmas on the loop over the listed resources -/

theorem collectLoop_ok_iff {α : Type} (body : α → Except Abort AzureServiceResult) :
    ∀ (xs : List α) (acc rs : List AzureServiceResult),
      collectLoop body xs acc = .returned (some rs) none ↔
        ∃ out, rs = acc ++ out ∧ List.Forall₂ (fun x r => body x = .ok r) xs out := by
  intro xs
  induction xs with
  | nil =>
    intro acc rs
    simp only [collectLoop, ReviewReturn.returned.injEq, Option.some.injEq, and_true]
    constructor
    · intro h
      exact ⟨[], by simp [h], List.Forall₂.nil⟩
    · rintro ⟨out, h, hf⟩
      cases hf
      simp [h]
  | cons x xs ih =>
    intro acc rs
    cases hb : body x with
    | error a =>
      cases a with
      | err e =>
        simp only [collectLoop, hb]
        constructor
        · intro h; cases h
        · rintro ⟨out, _, hf⟩
          cases hf with
          | cons h1 _ => rw [hb] at h1; cases h1
      | panic =>
        simp only [collectLoop, hb]
        constructor
        · intro h; cases h
        · rintro ⟨out, _, hf⟩
          cases hf with
          | cons h1 _ => rw [hb] at h1; cases h1
    | ok r =>
      simp only [collectLoop, hb]
      rw [ih]
      constructor
      · rintro ⟨out, h, hf⟩
        exact ⟨r :: out, by simp [h], List.Forall₂.cons hb hf⟩
      · rintro ⟨out, h, hf⟩
        cases hf with
        | cons h1 h2 =>
          rw [hb] at h1
          cases h1
          exact ⟨_, by simp [h], h2⟩

theorem collectLoop_err {α : Type} (body : α → Except Abort AzureServiceResult)
    (x : α) (post : List α) (e : Error) (hx : body x = .error (.err e)) :
    ∀ (pre : List α) (acc : List AzureServiceResult),
      (∀ y ∈ pre, ∃ r, body y = .ok r) →
      collectLoop body (pre ++ x :: post) acc = .returned none (some e) := by
  intro pre
  induction pre with
  | nil =>
    intro acc _
    simp [collectLoop, hx]
  | cons y ys ih =>
    intro acc h
    obtain ⟨r, hr⟩ := h y (by simp)
    simp only [List.cons_append, collectLoop, hr]
    exact ih _ (fun z hz => h z (by simp [hz]))

theorem collectLoop_returned {α : Type} (body : α → Except Abort AzureServiceResult) :
    ∀ (xs : List α) (acc : List AzureServiceResult) (res : Option (List AzureServiceResult))
      (err : Option Error),
      collectLoop body xs acc = .returned res err →
        (res = none ∧ ∃ e y, err = some e ∧ y ∈ xs ∧ body y = .error (.err e)) ∨
        (err = none ∧ ∃ rs, res = some rs) := by
  intro xs
  induction xs with
  | nil =>
    intro acc res err h
    simp only [collectLoop, ReviewReturn.returned.injEq] at h
    exact Or.inr ⟨h.2.symm, acc, h.1.symm⟩
  | cons x xs ih =>
    intro acc res err h
    cases hb : body x with
    | error a =>
      cases a with
      | err e =>
        simp only [collectLoop, hb, ReviewReturn.returned.injEq] at h
        exact Or.inl ⟨h.1.symm, e, x, h.2.symm, by simp, hb⟩
      | panic => simp [collectLoop, hb] at h
    | ok r =>
      simp only [collectLoop, hb] at h
      rcases ih _ _ _ h with ⟨h1, e, y, h2, h3, h4⟩ | h1
      · exact Or.inl ⟨h1, e, y, h2, by simp [h3], h4⟩
      · exact Or.inr h1

theorem CosmosDBAnalyzer.reviewLoop_eq_collectLoop
    (parseLocation : Option String → Option String) (c : CosmosDBAnalyzer) (rg : String) :
    ∀ (xs : List (Option armcosmos.DatabaseAccountGetResults)) (acc : List AzureServiceResult),
      CosmosDBAnalyzer.reviewLoop parseLocation c rg xs acc =
        collectLoop (CosmosDBAnalyzer.reviewDatabase parseLocation c rg) xs acc := by
  intro xs
  induction xs with
  | nil => intro acc; rfl
  | cons x xs ih =>
    intro acc
    simp only [CosmosDBAnalyzer.reviewLoop, collectLoop]
    cases hb : CosmosDBAnalyzer.reviewDatabase parseLocation c rg x with
    | error a => cases a <;> rfl
    | ok r => exact ih _

theorem SignalRAnalyzer.signalrLoop_eq_collectLoop
    (parseLocation : Option String → Option String) (c : SignalRAnalyzer) (rg : String) :
    ∀ (xs : List (Option armsignalr.ResourceInfo)) (acc : List AzureServiceResult),
      SignalRAnalyzer.reviewLoop parseLocation c rg xs acc =
        collectLoop (SignalRAnalyzer.reviewSignalR parseLocation c rg) xs acc := by
  intro xs
  induction xs with
  | nil => intro acc; rfl
  | cons x xs ih =>
    intro acc
    simp only [SignalRAnalyzer.reviewLoop, collectLoop]
    cases hb : SignalRAnalyzer.reviewSignalR parseLocation c rg x with
    | error a => cases a <;> rfl
    | ok r => exact ih _

/-! ## Lemmas on `Review` and on the loop bodies -/

theorem CosmosDBAnalyzer.Review_ok_iff (parseLocation : Option String → Option String)
    (c : CosmosDBAnalyzer) (rg : String) (rs : List AzureServiceResult) :
    CosmosDBAnalyzer.Review parseLocation c rg = .returned (some rs) none ↔
      (c.listDatabases rg).2 = none ∧
      List.Forall₂ (fun d r => CosmosDBAnalyzer.reviewDatabase parseLocation c rg d = .ok r)
        ((c.listDatabases rg).1.getD []) rs := by
  unfold CosmosDBAnalyzer.Review
  rcases hl : c.listDatabases rg with ⟨dbs, _ | e⟩
  · simp only [CosmosDBAnalyzer.reviewLoop_eq_collectLoop, collectLoop_ok_iff, List.nil_append,
      true_and]
    constructor
    · rintro ⟨out, rfl, h⟩
      exact h
    · intro h
      exact ⟨rs, rfl, h⟩
  · simp

theorem SignalRAnalyzer.signalrReview_ok_iff (parseLocation : Option String → Option String)
    (c : SignalRAnalyzer) (rg : String) (rs : List AzureServiceResult) :
    SignalRAnalyzer.Review parseLocation c rg = .returned (some rs) none ↔
      (c.listSignalR rg).2 = none ∧
      List.Forall₂ (fun d r => SignalRAnalyzer.reviewSignalR parseLocation c rg d = .ok r)
        ((c.listSignalR rg).1.getD []) rs := by
  unfold SignalRAnalyzer.Review
  rcases hl : c.listSignalR rg with ⟨dbs, _ | e⟩
  · simp only [SignalRAnalyzer.signalrLoop_eq_collectLoop, collectLoop_ok_iff, List.nil_append,
      true_and]
    constructor
    · rintro ⟨out, rfl, h⟩
      exact h
    · intro h
      exact ⟨rs, rfl, h⟩
  · simp

theorem CosmosDBAnalyzer.reviewDatabase_ok_iff (parseLocation : Option String → Option String)
    (c : CosmosDBAnalyzer) (rg : String)
    (database : Option armcosmos.DatabaseAccountGetResults) (r : AzureServiceResult) :
    CosmosDBAnalyzer.reviewDatabase parseLocation c rg database = .ok r ↔
      ∃ db id hasDiagnostics properties v name offerType type location,
        database = some db ∧ db.ID = some id ∧
        c.diagnosticsSettings.HasDiagnostics id = (hasDiagnostics, none) ∧
        db.Properties = some properties ∧
        CosmosDBAnalyzer.zoneRule properties.Locations = .ok v ∧
        db.Name = some name ∧ properties.DatabaseAccountOfferType = some offerType ∧
        db.Type_ = some type ∧ parseLocation db.Location = some location ∧
        r = { SubscriptionId := c.subscriptionId
              ResourceGroup := rg
              ServiceName := name
              Sku := offerType
              Sla := v.sla
              Type_ := type
              Location := location
              CAFNaming := strings.HasPrefix name "cosmos"
              AvailabilityZones := v.availabilityZones
              PrivateEndpoints := decide (properties.PrivateEndpointConnections.length > 0)
              DiagnosticSettings := hasDiagnostics } := by
  constructor
  · intro h
    unfold CosmosDBAnalyzer.reviewDatabase at h
    cases database with
    | none => simp at h
    | some db =>
      cases hid : db.ID with
      | none => simp [hid] at h
      | some id =>
        rcases hd : c.diagnosticsSettings.HasDiagnostics id with ⟨b, _ | e⟩
        · cases hp : db.Properties with
          | none => simp [hid, hd, hp] at h
          | some p =>
            cases hz : CosmosDBAnalyzer.zoneRule p.Locations with
            | error a => simp [hid, hd, hp, hz] at h
            | ok v =>
              cases hn : db.Name with
              | none => simp [hid, hd, hp, hz, hn] at h
              | some name =>
                cases ho : p.DatabaseAccountOfferType with
                | none => simp [hid, hd, hp, hz, hn, ho] at h
                | some offer =>
                  cases ht : db.Type_ with
                  | none => simp [hid, hd, hp, hz, hn, ho, ht] at h
                  | some ty =>
                    cases hloc : parseLocation db.Location with
                    | none => simp [hid, hd, hp, hz, hn, ho, ht, hloc] at h
                    | some loc =>
                      simp only [hid, hd, hp, hz, hn, ho, ht, hloc, Except.ok.injEq] at h
                      exact ⟨db, id, b, p, v, name, offer, ty, loc, rfl, hid, hd, hp, hz,
                        hn, ho, ht, hloc, h.symm⟩
        · simp [hid, hd] at h
  · rintro ⟨db, id, b, p, v, name, offer, ty, loc, rfl, hid, hd, hp, hz, hn, ho, ht, hloc, rfl⟩
    simp [CosmosDBAnalyzer.reviewDatabase, hid, hd, hp, hz, hn, ho, ht, hloc]

theorem SignalRAnalyzer.reviewSignalR_ok_iff (parseLocation : Option String → Option String)
    (c : SignalRAnalyzer) (rg : String)
    (signalr : Option armsignalr.ResourceInfo) (r : AzureServiceResult) :
    SignalRAnalyzer.reviewSignalR parseLocation c rg signalr = .ok r ↔
      ∃ s id hasDiagnostics skuRef sku name type location properties,
        signalr = some s ∧ s.ID = some id ∧
        c.diagnosticsSettings.HasDiagnostics id = (hasDiagnostics, none) ∧
        s.SKU = some skuRef ∧ skuRef.Name = some sku ∧
        s.Name = some name ∧ s.Type_ = some type ∧
        parseLocation s.Location = some location ∧ s.Properties = some properties ∧
        r = { SubscriptionId := c.subscriptionId
              ResourceGroup := rg
              ServiceName := name
              Sku := sku
              Sla := "99.9%"
              Type_ := type
              Location := location
              CAFNaming := strings.HasPrefix name "sigr"
              AvailabilityZones := strings.Contains sku "Premium"
              PrivateEndpoints := decide (properties.PrivateEndpointConnections.length > 0)
              DiagnosticSettings := hasDiagnostics } := by
  constructor
  · intro h
    unfold SignalRAnalyzer.reviewSignalR at h
    cases signalr with
    | none => simp at h
    | some s =>
      cases hid : s.ID with
      | none => simp [hid] at h
      | some id =>
        rcases hd : c.diagnosticsSettings.HasDiagnostics id with ⟨b, _ | e⟩
        · cases hs : s.SKU with
          | none => simp [hid, hd, hs] at h
          | some skuRef =>
            cases hk : skuRef.Name with
            | none => simp [hid, hd, hs, hk] at h
            | some sku =>
              cases hn : s.Name with
              | none => simp [hid, hd, hs, hk, hn] at h
              | some name =>
                cases ht : s.Type_ with
                | none => simp [hid, hd, hs, hk, hn, ht] at h
                | some ty =>
                  cases hloc : parseLocation s.Location with
                  | none => simp [hid, hd, hs, hk, hn, ht, hloc] at h
                  | some loc =>
                    cases hp : s.Properties with
                    | none => simp [hid, hd, hs, hk, hn, ht, hloc, hp] at h
                    | some p =>
                      simp only [hid, hd, hs, hk, hn, ht, hloc, hp, Except.ok.injEq] at h
                      refine ⟨s, id, b, skuRef, sku, name, ty, loc, p, rfl, hid, hd, hs, hk,
                        hn, ht, hloc, hp, ?_⟩
                      rw [← h]
                      simp
        · simp [hid, hd] at h
  · rintro ⟨s, id, b, skuRef, sku, name, ty, loc, p, rfl, hid, hd, hs, hk, hn, ht, hloc, hp, rfl⟩
    simp [SignalRAnalyzer.reviewSignalR, hid, hd, hs, hk, hn, ht, hloc, hp]

theorem forall₂_getElem? {α β : Type} {R : α → β → Prop} :
    ∀ {xs : List α} {ys : List β}, List.Forall₂ R xs ys →
      ∀ (i : Nat) (x : α), xs[i]? = some x → ∃ y, ys[i]? = some y ∧ R x y := by
  intro xs ys h
  induction h with
  | nil => intro i x hx; simp at hx
  | cons hxy _ ih =>
    intro i x hx
    cases i with
    | zero =>
      simp only [List.getElem?_cons_zero, Option.some.injEq] at hx
      subst hx
      exact ⟨_, by simp, hxy⟩
    | succ n =>
      simp only [List.getElem?_cons_succ] at hx
      obtain ⟨y, hy, hr⟩ := ih n x hx
      exact ⟨y, by simpa using hy, hr⟩

theorem CosmosDBAnalyzer.Review_record (parseLocation : Option String → Option String)
    (c : CosmosDBAnalyzer) (rg : String) (rs : List AzureServiceResult)
    (h : CosmosDBAnalyzer.Review parseLocation c rg = .returned (some rs) none)
    (i : Nat) (d : Option armcosmos.DatabaseAccountGetResults)
    (hd : ((c.listDatabases rg).1.getD [])[i]? = some d) :
    ∃ r, rs[i]? = some r ∧ CosmosDBAnalyzer.reviewDatabase parseLocation c rg d = .ok r :=
  forall₂_getElem? ((CosmosDBAnalyzer.Review_ok_iff parseLocation c rg rs).mp h).2 i d hd

theorem SignalRAnalyzer.signalrReview_record (parseLocation : Option String → Option String)
    (c : SignalRAnalyzer) (rg : String) (rs : List AzureServiceResult)
    (h : SignalRAnalyzer.Review parseLocation c rg = .returned (some rs) none)
    (i : Nat) (d : Option armsignalr.ResourceInfo)
    (hd : ((c.listSignalR rg).1.getD [])[i]? = some d) :
    ∃ r, rs[i]? = some r ∧ SignalRAnalyzer.reviewSignalR parseLocation c rg d = .ok r :=
  forall₂_getElem? ((SignalRAnalyzer.signalrReview_ok_iff parseLocation c rg rs).mp h).2 i d hd

theorem CosmosDBAnalyzer.Review_record_zone (parseLocation : Option String → Option String)
    (c : CosmosDBAnalyzer) (rg : String) (rs : List AzureServiceResult) (i : Nat)
    (db : armcosmos.DatabaseAccountGetResults) (p : armcosmos.DatabaseAccountGetProperties)
    (L : List Bool)
    (h : CosmosDBAnalyzer.Review parseLocation c rg = .returned (some rs) none)
    (hd : ((c.listDatabases rg).1.getD [])[i]? = some (some db))
    (hp : db.Properties = some p)
    (hL : armcosmos.zoneFlags p.Locations = L.map some) :
    ∃ r, rs[i]? = some r ∧ r.Sla = CosmosDBAnalyzer.specSla L ∧
      r.AvailabilityZones = L.any id := by
  obtain ⟨r, hr, hb⟩ := CosmosDBAnalyzer.Review_record parseLocation c rg rs h i _ hd
  obtain ⟨db2, id, b, p2, v, name, offer, ty, loc, h1, -, -, h4, h5, -, -, -, -, rfl⟩ :=
    (CosmosDBAnalyzer.reviewDatabase_ok_iff parseLocation c rg _ r).mp hb
  cases h1
  rw [hp] at h4
  cases h4
  rw [CosmosDBAnalyzer.zoneRule_flags _ L hL] at h5
  cases h5
  exact ⟨_, hr, rfl, rfl⟩

theorem CosmosDBAnalyzer.specSla_mixed (L : List Bool) (ht : true ∈ L) (hf : false ∈ L) :
    CosmosDBAnalyzer.specSla L = "99.995%" := by
  unfold CosmosDBAnalyzer.specSla
  have h1 : ¬ (2 ≤ L.length ∧ ∀ b ∈ L, b = true) := fun h => absurd (h.2 false hf) (by decide)
  rw [if_neg h1, if_pos ⟨true, ht, rfl⟩]

theorem CosmosDBAnalyzer.specSla_none (L : List Bool) (h : ∀ b ∈ L, b = false) :
    CosmosDBAnalyzer.specSla L = "99.99%" := by
  unfold CosmosDBAnalyzer.specSla
  have h2 : ¬ ∃ b ∈ L, b = true := by
    rintro ⟨b, hb, rfl⟩
    exact absurd (h true hb) (by decide)
  have h1 : ¬ (2 ≤ L.length ∧ ∀ b ∈ L, b = true) := by
    rintro ⟨hlen, hall⟩
    cases L with
    | nil => simp at hlen
    | cons b L => exact h2 ⟨b, by simp, hall b (by simp)⟩
  rw [if_neg h1, if_neg h2]

theorem CosmosDBAnalyzer.specSla_some (L : List Bool) (h : ∃ b ∈ L, b = true) :
    CosmosDBAnalyzer.specSla L = "99.995%" ∨ CosmosDBAnalyzer.specSla L = "99.999%" := by
  unfold CosmosDBAnalyzer.specSla
  by_cases h1 : 2 ≤ L.length ∧ ∀ b ∈ L, b = true
  · rw [if_pos h1]; exact Or.inr rfl
  · rw [if_neg h1, if_pos h]; exact Or.inl rfl

theorem CosmosDBAnalyzer.specSla_all (L : List Bool) (h2 : 2 ≤ L.length)
    (h : ∀ b ∈ L, b = true) : CosmosDBAnalyzer.specSla L = "99.999%" := by
  unfold CosmosDBAnalyzer.specSla
  rw [if_pos ⟨h2, h⟩]

/-! ## Lemmas on well-formed descriptors, on the listing and on the prefix test -/

theorem strings.HasPrefix_iff (s pfx : String) :
    strings.HasPrefix s pfx = true ↔ ∃ rest : String, s = pfx ++ rest := by
  unfold strings.HasPrefix
  simp only [Bool.and_eq_true, decide_eq_true_eq]
  constructor
  · rintro ⟨-, h⟩
    refine ⟨String.mk (s.toList.drop pfx.toList.length), ?_⟩
    apply String.ext
    simp only [String.data_append]
    have := List.take_append_drop pfx.toList.length s.toList
    rw [h] at this
    exact this.symm
  · rintro ⟨rest, rfl⟩
    simp [String.toList]

theorem armcosmos.zoneFlags_of_all :
    ∀ (locations : List (Option armcosmos.Location)),
      locations.all (fun l =>
        match l with
        | none => false
        | some x => x.IsZoneRedundant.isSome) = true →
      ∃ L : List Bool, armcosmos.zoneFlags locations = L.map some := by
  intro locations
  induction locations with
  | nil => intro _; exact ⟨[], rfl⟩
  | cons l ls ih =>
    intro h
    simp only [List.all_cons, Bool.and_eq_true] at h
    obtain ⟨L, hL⟩ := ih h.2
    cases l with
    | none => simp at h
    | some x =>
      cases hz : x.IsZoneRedundant with
      | none => simp [hz] at h
      | some b =>
        refine ⟨b :: L, ?_⟩
        simp only [armcosmos.zoneFlags, List.map_cons, Option.some_bind, hz, List.cons.injEq,
          true_and]
        exact hL

theorem CosmosDBAnalyzer.reviewDatabase_ok_of_wellFormed
    (parseLocation : Option String → Option String) (c : CosmosDBAnalyzer) (rg : String)
    (db : armcosmos.DatabaseAccountGetResults) (id : String) (b : Bool)
    (hw : db.wellFormed parseLocation = true) (hid : db.ID = some id)
    (hd : c.diagnosticsSettings.HasDiagnostics id = (b, none)) :
    ∃ r, CosmosDBAnalyzer.reviewDatabase parseLocation c rg (some db) = .ok r := by
  unfold armcosmos.DatabaseAccountGetResults.wellFormed at hw
  simp only [Bool.and_eq_true] at hw
  obtain ⟨⟨⟨⟨-, hn⟩, ht⟩, hl⟩, hp⟩ := hw
  cases hprops : db.Properties with
  | none => simp [hprops] at hp
  | some p =>
    simp only [hprops, Bool.and_eq_true] at hp
    obtain ⟨name, hn⟩ := Option.isSome_iff_exists.mp hn
    obtain ⟨ty, ht⟩ := Option.isSome_iff_exists.mp ht
    obtain ⟨loc, hl⟩ := Option.isSome_iff_exists.mp hl
    obtain ⟨offer, ho⟩ := Option.isSome_iff_exists.mp hp.1
    obtain ⟨L, hL⟩ := armcosmos.zoneFlags_of_all p.Locations hp.2
    refine ⟨_, (CosmosDBAnalyzer.reviewDatabase_ok_iff parseLocation c rg _ _).mpr
      ⟨db, id, b, p, _, name, offer, ty, loc, rfl, hid, hd, hprops,
        CosmosDBAnalyzer.zoneRule_flags _ L hL, hn, ho, ht, hl, rfl⟩⟩

theorem SignalRAnalyzer.reviewSignalR_ok_of_wellFormed
    (parseLocation : Option String → Option String) (c : SignalRAnalyzer) (rg : String)
    (s : armsignalr.ResourceInfo) (id : String) (b : Bool)
    (hw : s.wellFormed parseLocation = true) (hid : s.ID = some id)
    (hd : c.diagnosticsSettings.HasDiagnostics id = (b, none)) :
    ∃ r, SignalRAnalyzer.reviewSignalR parseLocation c rg (some s) = .ok r := by
  unfold armsignalr.ResourceInfo.wellFormed at hw
  simp only [Bool.and_eq_true] at hw
  obtain ⟨⟨⟨⟨⟨-, hn⟩, ht⟩, hl⟩, hp⟩, hsku⟩ := hw
  cases hs : s.SKU with
  | none => simp [hs] at hsku
  | some skuRef =>
    simp only [hs] at hsku
    obtain ⟨name, hn⟩ := Option.isSome_iff_exists.mp hn
    obtain ⟨ty, ht⟩ := Option.isSome_iff_exists.mp ht
    obtain ⟨loc, hl⟩ := Option.isSome_iff_exists.mp hl
    obtain ⟨p, hp⟩ := Option.isSome_iff_exists.mp hp
    obtain ⟨sku, hk⟩ := Option.isSome_iff_exists.mp hsku
    refine ⟨_, (SignalRAnalyzer.reviewSignalR_ok_iff parseLocation c rg _ _).mpr
      ⟨s, id, b, skuRef, sku, name, ty, loc, p, rfl, hid, hd, hs, hk, hn, ht, hl, hp, rfl⟩⟩

theorem CosmosDBAnalyzer.Review_listing_error (parseLocation : Option String → Option String)
    (c : CosmosDBAnalyzer) (rg : String) (e : Error) (h : (c.listDatabases rg).2 = some e) :
    CosmosDBAnalyzer.Review parseLocation c rg = .returned none (some e) := by
  unfold CosmosDBAnalyzer.Review
  rcases hl : c.listDatabases rg with ⟨dbs, _ | e2⟩
  · rw [hl] at h; cases h
  · rw [hl] at h
    cases h
    rfl

theorem SignalRAnalyzer.signalrReview_listing_error
    (parseLocation : Option String → Option String)
    (c : SignalRAnalyzer) (rg : String) (e : Error) (h : (c.listSignalR rg).2 = some e) :
    SignalRAnalyzer.Review parseLocation c rg = .returned none (some e) := by
  unfold SignalRAnalyzer.Review
  rcases hl : c.listSignalR rg with ⟨dbs, _ | e2⟩
  · rw [hl] at h; cases h
  · rw [hl] at h
    cases h
    rfl

theorem CosmosDBAnalyzer.Review_listing_ok (parseLocation : Option String → Option String)
    (c : CosmosDBAnalyzer) (rg : String) (h : (c.listDatabases rg).2 = none) :
    CosmosDBAnalyzer.Review parseLocation c rg =
      collectLoop (CosmosDBAnalyzer.reviewDatabase parseLocation c rg)
        ((c.listDatabases rg).1.getD []) [] := by
  unfold CosmosDBAnalyzer.Review
  rcases hl : c.listDatabases rg with ⟨dbs, _ | e2⟩
  · exact CosmosDBAnalyzer.reviewLoop_eq_collectLoop parseLocation c rg _ _
  · rw [hl] at h; cases h

theorem SignalRAnalyzer.signalrReview_listing_ok
    (parseLocation : Option String → Option String)
    (c : SignalRAnalyzer) (rg : String) (h : (c.listSignalR rg).2 = none) :
    SignalRAnalyzer.Review parseLocation c rg =
      collectLoop (SignalRAnalyzer.reviewSignalR parseLocation c rg)
        ((c.listSignalR rg).1.getD []) [] := by
  unfold SignalRAnalyzer.Review
  rcases hl : c.listSignalR rg with ⟨dbs, _ | e2⟩
  · exact SignalRAnalyzer.signalrLoop_eq_collectLoop parseLocation c rg _ _
  · rw [hl] at h; cases h

theorem CosmosDBAnalyzer.reviewDatabase_lookup_error
    (parseLocation : Option String → Option String) (c : CosmosDBAnalyzer) (rg : String)
    (db : armcosmos.DatabaseAccountGetResults) (id : String) (b : Bool) (e : Error)
    (hid : db.ID = some id) (hd : c.diagnosticsSettings.HasDiagnostics id = (b, some e)) :
    CosmosDBAnalyzer.reviewDatabase parseLocation c rg (some db) = .error (.err e) := by
  simp [CosmosDBAnalyzer.reviewDatabase, hid, hd]

theorem SignalRAnalyzer.reviewSignalR_lookup_error
    (parseLocation : Option String → Option String) (c : SignalRAnalyzer) (rg : String)
    (s : armsignalr.ResourceInfo) (id : String) (b : Bool) (e : Error)
    (hid : s.ID = some id) (hd : c.diagnosticsSettings.HasDiagnostics id = (b, some e)) :
    SignalRAnalyzer.reviewSignalR parseLocation c rg (some s) = .error (.err e) := by
  simp [SignalRAnalyzer.reviewSignalR, hid, hd]

theorem forall₂_getElem?_right {α β : Type} {R : α → β → Prop} :
    ∀ {xs : List α} {ys : List β}, List.Forall₂ R xs ys →
      ∀ (i : Nat), i < ys.length → ∃ x y, xs[i]? = some x ∧ ys[i]? = some y ∧ R x y := by
  intro xs ys h
  induction h with
  | nil => intro i hi; simp at hi
  | cons hxy _ ih =>
    intro i hi
    cases i with
    | zero => exact ⟨_, _, by simp, by simp, hxy⟩
    | succ n =>
      obtain ⟨x, y, hx, hy, hr⟩ := ih n (by simpa using hi)
      exact ⟨x, y, by simpa using hx, by simpa using hy, hr⟩

/-! ## The CosmosDB SLA and zone rule -/

/-- C1: SLA derivation in `CosmosDBAnalyzer.Review`.  Whenever `Review`
succeeds, the descriptor at position `i` of the listing whose location flags
are the list `L` (any list, the empty one included) has its record at position
`i` of the result, and that record's `Sla` is "99.999%" if `L` has at least 2
entries and every entry is zone-redundant, otherwise "99.995%" if at least one
entry is zone-redundant, otherwise "99.99%". -/
theorem cosmos_sla_derivation (parseLocation : Option String → Option String)
    (c : CosmosDBAnalyzer) (rg : String) (rs : List AzureServiceResult) (i : Nat)
    (db : armcosmos.DatabaseAccountGetResults) (p : armcosmos.DatabaseAccountGetProperties)
    (L : List Bool)
    (hrev : CosmosDBAnalyzer.Review parseLocation c rg = .returned (some rs) none)
    (hdb : ((c.listDatabases rg).1.getD [])[i]? = some (some db))
    (hp : db.Properties = some p)
    (hL : armcosmos.zoneFlags p.Locations = L.map some) :
    ∃ r, rs[i]? = some r ∧
      r.Sla = (if 2 ≤ L.length ∧ (∀ b ∈ L, b = true) then "99.999%"
               else if (∃ b ∈ L, b = true) then "99.995%"
               else "99.99%") := by
  obtain ⟨r, hr, hsla, -⟩ :=
    CosmosDBAnalyzer.Review_record_zone parseLocation c rg rs i db p L hrev hdb hp hL
  exact ⟨r, hr, hsla⟩

/-- Witness of C1: the second sample database, with two zone-redundant
locations, gets the record with `Sla` "99.999%". -/
theorem cosmos_sla_derivation_witness :
    ∃ r, sampleRecords[1]? = some r ∧
      r.Sla = (if 2 ≤ [true, true].length ∧ (∀ b ∈ [true, true], b = true) then "99.999%"
               else if (∃ b ∈ [true, true], b = true) then "99.995%"
               else "99.99%") :=
  cosmos_sla_derivation sampleParseLocation (sampleCosmos (some sampleDatabases) none) "rg"
    sampleRecords 1
    (sampleAccount "/db/b" "cosmos-db1" [true, true]) (sampleProperties [true, true])
    [true, true] (by decide) (by decide) rfl (by decide)

/-- C2: zone flag in `CosmosDBAnalyzer.Review`.  Whenever `Review` succeeds,
the record of the descriptor at position `i` with location flags `L` has
`AvailabilityZones` true if and only if at least one location is
zone-redundant, whatever the SLA tier; and for a single location that is not
zone-redundant the record has `Sla` "99.99%" and `AvailabilityZones` false. -/
theorem cosmos_availability_zones (parseLocation : Option String → Option String)
    (c : CosmosDBAnalyzer) (rg : String) (rs : List AzureServiceResult) (i : Nat)
    (db : armcosmos.DatabaseAccountGetResults) (p : armcosmos.DatabaseAccountGetProperties)
    (L : List Bool)
    (hrev : CosmosDBAnalyzer.Review parseLocation c rg = .returned (some rs) none)
    (hdb : ((c.listDatabases rg).1.getD [])[i]? = some (some db))
    (hp : db.Properties = some p)
    (hL : armcosmos.zoneFlags p.Locations = L.map some) :
    ∃ r, rs[i]? = some r ∧
      (r.AvailabilityZones = true ↔ ∃ b ∈ L, b = true) ∧
      (L = [false] → r.Sla = "99.99%" ∧ r.AvailabilityZones = false) := by
  obtain ⟨r, hr, hsla, haz⟩ :=
    CosmosDBAnalyzer.Review_record_zone parseLocation c rg rs i db p L hrev hdb hp hL
  refine ⟨r, hr, ?_, ?_⟩
  · rw [haz]
    simp [List.any_eq_true]
  · intro hone
    subst hone
    rw [hsla, haz]
    exact ⟨by decide, by decide⟩

/-- Witness of C2: the first sample database has one location, not
zone-redundant. -/
theorem cosmos_availability_zones_witness :
    ∃ r, sampleRecords[0]? = some r ∧
      (r.AvailabilityZones = true ↔ ∃ b ∈ [false], b = true) ∧
      ([false] = [false] → r.Sla = "99.99%" ∧ r.AvailabilityZones = false) :=
  cosmos_availability_zones sampleParseLocation (sampleCosmos (some sampleDatabases) none) "rg"
    sampleRecords 0
    (sampleAccount "/db/a" "Cosmos-db1" [false]) (sampleProperties [false])
    [false] (by decide) (by decide) rfl (by decide)

/-- C3: all-or-nothing zone rule in `CosmosDBAnalyzer.Review`.  Whenever
`Review` succeeds, the record of a descriptor whose location flags contain at
least one zone-redundant and at least one non-zone-redundant entry, at any
positions and in any proportion, has `Sla` exactly "99.995%", not
"99.999%". -/
theorem cosmos_all_or_nothing (parseLocation : Option String → Option String)
    (c : CosmosDBAnalyzer) (rg : String) (rs : List AzureServiceResult) (i : Nat)
    (db : armcosmos.DatabaseAccountGetResults) (p : armcosmos.DatabaseAccountGetProperties)
    (L : List Bool)
    (hrev : CosmosDBAnalyzer.Review parseLocation c rg = .returned (some rs) none)
    (hdb : ((c.listDatabases rg).1.getD [])[i]? = some (some db))
    (hp : db.Properties = some p)
    (hL : armcosmos.zoneFlags p.Locations = L.map some)
    (hzone : true ∈ L) (hplain : false ∈ L) :
    ∃ r, rs[i]? = some r ∧ r.Sla = "99.995%" ∧ r.Sla ≠ "99.999%" := by
  obtain ⟨r, hr, hsla, -⟩ :=
    CosmosDBAnalyzer.Review_record_zone parseLocation c rg rs i db p L hrev hdb hp hL
  rw [CosmosDBAnalyzer.specSla_mixed L hzone hplain] at hsla
  refine ⟨r, hr, hsla, ?_⟩
  rw [hsla]
  decide

/-- Witness of C3: the third sample database has 3 locations, 2 zone-redundant
and 1 not, and gets "99.995%". -/
theorem cosmos_all_or_nothing_witness :
    (true ∈ [true, true, false] ∧ false ∈ [true, true, false]) ∧
      ∃ r, sampleRecords[2]? = some r ∧ r.Sla = "99.995%" ∧ r.Sla ≠ "99.999%" :=
  ⟨by decide,
   cosmos_all_or_nothing sampleParseLocation (sampleCosmos (some sampleDatabases) none) "rg"
    sampleRecords 2
    (sampleAccount "/db/c" "cosmos-db2" [true, true, false]) (sampleProperties [true, true, false])
    [true, true, false] (by decide) (by decide) rfl (by decide) (by decide) (by decide)⟩

/-- C4: single zone-redundant location in `CosmosDBAnalyzer.Review`.  Whenever
`Review` succeeds, the record of a descriptor with exactly one location, that
location zone-redundant, has `Sla` "99.995%", not "99.999%", and
`AvailabilityZones` true. -/
theorem cosmos_single_zone_location (parseLocation : Option String → Option String)
    (c : CosmosDBAnalyzer) (rg : String) (rs : List AzureServiceResult) (i : Nat)
    (db : armcosmos.DatabaseAccountGetResults) (p : armcosmos.DatabaseAccountGetProperties)
    (hrev : CosmosDBAnalyzer.Review parseLocation c rg = .returned (some rs) none)
    (hdb : ((c.listDatabases rg).1.getD [])[i]? = some (some db))
    (hp : db.Properties = some p)
    (hL : armcosmos.zoneFlags p.Locations = [some true]) :
    ∃ r, rs[i]? = some r ∧ r.Sla = "99.995%" ∧ r.Sla ≠ "99.999%" ∧
      r.AvailabilityZones = true := by
  obtain ⟨r, hr, hsla, haz⟩ :=
    CosmosDBAnalyzer.Review_record_zone parseLocation c rg rs i db p [true] hrev hdb hp hL
  have h1 : CosmosDBAnalyzer.specSla [true] = "99.995%" := by decide
  rw [h1] at hsla
  refine ⟨r, hr, hsla, ?_, ?_⟩
  · rw [hsla]
    decide
  · rw [haz]
    rfl

/-- Witness of C4: the fourth sample database has one location, which is
zone-redundant. -/
theorem cosmos_single_zone_location_witness :
    ∃ r, sampleRecords[3]? = some r ∧ r.Sla = "99.995%" ∧ r.Sla ≠ "99.999%" ∧
      r.AvailabilityZones = true :=
  cosmos_single_zone_location sampleParseLocation (sampleCosmos (some sampleDatabases) none) "rg"
    sampleRecords 3
    (sampleAccount "/db/d" "mycosmos" [true]) (sampleProperties [true])
    (by decide) (by decide) rfl (by decide)

/-- C5: SLA monotonicity of the CosmosDB rule under the order
"99.99%" < "99.995%" < "99.999%".  For location slices with flag lists `A`
(no zone-redundant location), `B` (at least one zone-redundant location) and
`C` (at least 2 locations, all zone-redundant), the rule yields a tier on each,
with tier(A) < tier(B) and tier(B) ≤ tier(C). -/
theorem cosmos_sla_monotone (la lb lc : List (Option armcosmos.Location)) (A B C : List Bool)
    (hA : armcosmos.zoneFlags la = A.map some)
    (hB : armcosmos.zoneFlags lb = B.map some)
    (hC : armcosmos.zoneFlags lc = C.map some)
    (hnone : ∀ b ∈ A, b = false)
    (hsome : ∃ b ∈ B, b = true)
    (htwo : 2 ≤ C.length) (hall : ∀ b ∈ C, b = true) :
    ∃ va vb vc ta tb tc,
      CosmosDBAnalyzer.zoneRule la = .ok va ∧
      CosmosDBAnalyzer.zoneRule lb = .ok vb ∧
      CosmosDBAnalyzer.zoneRule lc = .ok vc ∧
      slaRank va.sla = some ta ∧ slaRank vb.sla = some tb ∧ slaRank vc.sla = some tc ∧
      ta < tb ∧ tb ≤ tc := by
  have ha := CosmosDBAnalyzer.zoneRule_flags la A hA
  have hb := CosmosDBAnalyzer.zoneRule_flags lb B hB
  have hc := CosmosDBAnalyzer.zoneRule_flags lc C hC
  rw [CosmosDBAnalyzer.specSla_none A hnone] at ha
  rw [CosmosDBAnalyzer.specSla_all C htwo hall] at hc
  have r0 : slaRank "99.99%" = some 0 := by decide
  have r1 : slaRank "99.995%" = some 1 := by decide
  have r2 : slaRank "99.999%" = some 2 := by decide
  rcases CosmosDBAnalyzer.specSla_some B hsome with h | h
  · rw [h] at hb
    exact ⟨_, _, _, 0, 1, 2, ha, hb, hc, r0, r1, r2, by decide, by decide⟩
  · rw [h] at hb
    exact ⟨_, _, _, 0, 2, 2, ha, hb, hc, r0, r2, r2, by decide, by decide⟩

/-- Witness of C5: no zones in one location, one zone-redundant location out
of two, and two zone-redundant locations. -/
theorem cosmos_sla_monotone_witness :
    ∃ va vb vc ta tb tc,
      CosmosDBAnalyzer.zoneRule [sampleLocation false] = .ok va ∧
      CosmosDBAnalyzer.zoneRule [sampleLocation false, sampleLocation true] = .ok vb ∧
      CosmosDBAnalyzer.zoneRule [sampleLocation true, sampleLocation true] = .ok vc ∧
      slaRank va.sla = some ta ∧ slaRank vb.sla = some tb ∧ slaRank vc.sla = some tc ∧
      ta < tb ∧ tb ≤ tc :=
  cosmos_sla_monotone _ _ _ [false] [false, true] [true, true]
    (by decide) (by decide) (by decide) (by decide) (by decide) (by decide) (by decide)

/-! ## Errors, cardinality and the empty listing -/

/-- C6: listing failure.  For `CosmosDBAnalyzer.Review` and for
`SignalRAnalyzer.Review`, whenever the listing returns an error `e`, `Review`
returns the nil slice together with exactly `e`, for every resource group,
whatever slice the listing returned next to the error and whatever diagnostics
checker `ds` the analyzer holds. -/
theorem listing_failure_returns_nil :
    (∀ (parseLocation : Option String → Option String) (c : CosmosDBAnalyzer)
        (ds : DiagnosticsSettings) (rg : String) (e : Error),
      (c.listDatabases rg).2 = some e →
      CosmosDBAnalyzer.Review parseLocation { c with diagnosticsSettings := ds } rg =
        .returned none (some e)) ∧
    (∀ (parseLocation : Option String → Option String) (c : SignalRAnalyzer)
        (ds : DiagnosticsSettings) (rg : String) (e : Error),
      (c.listSignalR rg).2 = some e →
      SignalRAnalyzer.Review parseLocation { c with diagnosticsSettings := ds } rg =
        .returned none (some e)) := by
  constructor
  · intro parseLocation c ds rg e h
    exact CosmosDBAnalyzer.Review_listing_error parseLocation _ rg e h
  · intro parseLocation c ds rg e h
    exact SignalRAnalyzer.signalrReview_listing_error parseLocation _ rg e h

/-- Witness of C6: listing hooks that return a non-empty slice next to an
error, with a checker that would itself fail. -/
theorem listing_failure_returns_nil_witness :
    CosmosDBAnalyzer.Review sampleParseLocation
        { sampleCosmos (some sampleDatabases) (some "listing failed") with
          diagnosticsSettings := failingChecker } "rg" =
      .returned none (some "listing failed") ∧
    SignalRAnalyzer.Review sampleParseLocation
        { sampleSignalRAnalyzer (some sampleSignalRs) (some "listing failed") with
          diagnosticsSettings := failingChecker } "rg" =
      .returned none (some "listing failed") :=
  ⟨listing_failure_returns_nil.1 sampleParseLocation
      (sampleCosmos (some sampleDatabases) (some "listing failed")) failingChecker "rg"
      "listing failed" (by decide),
   listing_failure_returns_nil.2 sampleParseLocation
      (sampleSignalRAnalyzer (some sampleSignalRs) (some "listing failed")) failingChecker "rg"
      "listing failed" (by decide)⟩

/-- C7: a diagnostics failure is atomic.  For both analyzers: let the listing
succeed with the slice `pre ++ [x] ++ post`, where every resource of `pre` is
well formed and its lookup succeeds, and the lookup of `x` (by its identifier)
fails with the error `e`; `x` is then the first resource in listing order whose
lookup fails.  `Review` returns the nil slice, so no record of `pre`, together
with `e`, whatever `post` holds. -/
theorem diagnostics_failure_is_atomic :
    (∀ (parseLocation : Option String → Option String) (c : CosmosDBAnalyzer) (rg : String)
        (pre post : List (Option armcosmos.DatabaseAccountGetResults))
        (x : armcosmos.DatabaseAccountGetResults) (id : String) (b : Bool) (e : Error),
      (c.listDatabases rg).2 = none →
      (c.listDatabases rg).1.getD [] = pre ++ some x :: post →
      (∀ y ∈ pre, ∃ db i a, y = some db ∧ db.wellFormed parseLocation = true ∧
        db.ID = some i ∧ c.diagnosticsSettings.HasDiagnostics i = (a, none)) →
      x.ID = some id →
      c.diagnosticsSettings.HasDiagnostics id = (b, some e) →
      CosmosDBAnalyzer.Review parseLocation c rg = .returned none (some e)) ∧
    (∀ (parseLocation : Option String → Option String) (c : SignalRAnalyzer) (rg : String)
        (pre post : List (Option armsignalr.ResourceInfo))
        (x : armsignalr.ResourceInfo) (id : String) (b : Bool) (e : Error),
      (c.listSignalR rg).2 = none →
      (c.listSignalR rg).1.getD [] = pre ++ some x :: post →
      (∀ y ∈ pre, ∃ s i a, y = some s ∧ s.wellFormed parseLocation = true ∧
        s.ID = some i ∧ c.diagnosticsSettings.HasDiagnostics i = (a, none)) →
      x.ID = some id →
      c.diagnosticsSettings.HasDiagnostics id = (b, some e) →
      SignalRAnalyzer.Review parseLocation c rg = .returned none (some e)) := by
  constructor
  · intro parseLocation c rg pre post x id b e hlist hsplit hpre hid hfail
    rw [CosmosDBAnalyzer.Review_listing_ok parseLocation c rg hlist, hsplit]
    apply collectLoop_err _ _ _ _
      (CosmosDBAnalyzer.reviewDatabase_lookup_error parseLocation c rg x id b e hid hfail)
    intro y hy
    obtain ⟨db, i, a, rfl, hw, hi, ha⟩ := hpre y hy
    exact CosmosDBAnalyzer.reviewDatabase_ok_of_wellFormed parseLocation c rg db i a hw hi ha
  · intro parseLocation c rg pre post x id b e hlist hsplit hpre hid hfail
    rw [SignalRAnalyzer.signalrReview_listing_ok parseLocation c rg hlist, hsplit]
    apply collectLoop_err _ _ _ _
      (SignalRAnalyzer.reviewSignalR_lookup_error parseLocation c rg x id b e hid hfail)
    intro y hy
    obtain ⟨s, i, a, rfl, hw, hi, ha⟩ := hpre y hy
    exact SignalRAnalyzer.reviewSignalR_ok_of_wellFormed parseLocation c rg s i a hw hi ha

/-- Witness of C7: with `failingChecker` the lookups of the third and of the
fourth sample database fail, and `Review` returns the error of the third; the
lookup of the second sample SignalR resource fails after the first was
checked. -/
theorem diagnostics_failure_is_atomic_witness :
    CosmosDBAnalyzer.Review sampleParseLocation
        { sampleCosmos (some sampleDatabases) none with
          diagnosticsSettings := failingChecker } "rg" =
      .returned none (some "lookup failed") ∧
    SignalRAnalyzer.Review sampleParseLocation
        { sampleSignalRAnalyzer (some sampleSignalRs) none with
          diagnosticsSettings := failingChecker } "rg" =
      .returned none (some "signalr lookup failed") :=
  ⟨diagnostics_failure_is_atomic.1 sampleParseLocation
      { sampleCosmos (some sampleDatabases) none with diagnosticsSettings := failingChecker }
      "rg"
      [sampleDatabase "/db/a" "Cosmos-db1" [false], sampleDatabase "/db/b" "cosmos-db1" [true, true]]
      [sampleDatabase "/db/d" "mycosmos" [true]]
      (sampleAccount "/db/c" "cosmos-db2" [true, true, false]) "/db/c" false "lookup failed"
      (by decide) (by decide)
      (by
        intro y hy
        simp only [List.mem_cons, List.mem_singleton, List.not_mem_nil, or_false] at hy
        rcases hy with rfl | rfl
        · exact ⟨sampleAccount "/db/a" "Cosmos-db1" [false], "/db/a", false, rfl, by decide,
            rfl, by decide⟩
        · exact ⟨sampleAccount "/db/b" "cosmos-db1" [true, true], "/db/b", false, rfl,
            by decide, rfl, by decide⟩)
      rfl (by decide),
   diagnostics_failure_is_atomic.2 sampleParseLocation
      { sampleSignalRAnalyzer (some sampleSignalRs) none with
        diagnosticsSettings := failingChecker }
      "rg"
      [sampleSignalR "/db/b" "sigr-chat" "Premium_P1"] []
      (sampleResourceInfo "/sigr/2" "Sigr-chat" "Free_F1") "/sigr/2" false
      "signalr lookup failed"
      (by decide) (by decide)
      (by
        intro y hy
        simp only [List.mem_singleton] at hy
        subst hy
        exact ⟨sampleResourceInfo "/db/b" "sigr-chat" "Premium_P1", "/db/b", false, rfl,
          by decide, rfl, by decide⟩)
      rfl (by decide)⟩

/-- C8: cardinality and order preservation.  For both analyzers, whenever
`Review` succeeds, the result has exactly as many records as the listing has
descriptors, and for every index `i` the record at `i` has as `ServiceName` the
name of the descriptor at `i`. -/
theorem cardinality_and_order_preserved :
    (∀ (parseLocation : Option String → Option String) (c : CosmosDBAnalyzer) (rg : String)
        (rs : List AzureServiceResult),
      CosmosDBAnalyzer.Review parseLocation c rg = .returned (some rs) none →
      rs.length = ((c.listDatabases rg).1.getD []).length ∧
      ∀ i, i < rs.length → ∃ db name r,
        ((c.listDatabases rg).1.getD [])[i]? = some (some db) ∧ db.Name = some name ∧
        rs[i]? = some r ∧ r.ServiceName = name) ∧
    (∀ (parseLocation : Option String → Option String) (c : SignalRAnalyzer) (rg : String)
        (rs : List AzureServiceResult),
      SignalRAnalyzer.Review parseLocation c rg = .returned (some rs) none →
      rs.length = ((c.listSignalR rg).1.getD []).length ∧
      ∀ i, i < rs.length → ∃ s name r,
        ((c.listSignalR rg).1.getD [])[i]? = some (some s) ∧ s.Name = some name ∧
        rs[i]? = some r ∧ r.ServiceName = name) := by
  constructor
  · intro parseLocation c rg rs h
    have hall := ((CosmosDBAnalyzer.Review_ok_iff parseLocation c rg rs).mp h).2
    refine ⟨hall.length_eq.symm, ?_⟩
    intro i hi
    obtain ⟨x, r, hx, hr, hb⟩ := forall₂_getElem?_right hall i hi
    obtain ⟨db, id, b, p, v, name, offer, ty, loc, rfl, -, -, -, -, hn, -, -, -, rfl⟩ :=
      (CosmosDBAnalyzer.reviewDatabase_ok_iff parseLocation c rg _ r).mp hb
    exact ⟨db, name, _, hx, hn, hr, rfl⟩
  · intro parseLocation c rg rs h
    have hall := ((SignalRAnalyzer.signalrReview_ok_iff parseLocation c rg rs).mp h).2
    refine ⟨hall.length_eq.symm, ?_⟩
    intro i hi
    obtain ⟨x, r, hx, hr, hb⟩ := forall₂_getElem?_right hall i hi
    obtain ⟨s, id, b, skuRef, sku, name, ty, loc, p, rfl, -, -, -, -, hn, -, -, -, rfl⟩ :=
      (SignalRAnalyzer.reviewSignalR_ok_iff parseLocation c rg _ r).mp hb
    exact ⟨s, name, _, hx, hn, hr, rfl⟩

/-- Witness of C8: four records for the four sample databases and two for the
two sample SignalR resources, names in listing order. -/
theorem cardinality_and_order_preserved_witness :
    (sampleRecords.length =
        (((sampleCosmos (some sampleDatabases) none).listDatabases "rg").1.getD []).length ∧
      ∀ i, i < sampleRecords.length → ∃ db name r,
        (((sampleCosmos (some sampleDatabases) none).listDatabases "rg").1.getD [])[i]? =
          some (some db) ∧ db.Name = some name ∧
        sampleRecords[i]? = some r ∧ r.ServiceName = name) ∧
    (sampleSignalRRecords.length =
        (((sampleSignalRAnalyzer (some sampleSignalRs) none).listSignalR "rg").1.getD []).length ∧
      ∀ i, i < sampleSignalRRecords.length → ∃ s name r,
        (((sampleSignalRAnalyzer (some sampleSignalRs) none).listSignalR "rg").1.getD [])[i]? =
          some (some s) ∧ s.Name = some name ∧
        sampleSignalRRecords[i]? = some r ∧ r.ServiceName = name) :=
  ⟨cardinality_and_order_preserved.1 sampleParseLocation
      (sampleCosmos (some sampleDatabases) none) "rg" sampleRecords (by decide),
   cardinality_and_order_preserved.2 sampleParseLocation
      (sampleSignalRAnalyzer (some sampleSignalRs) none) "rg" sampleSignalRRecords (by decide)⟩

/-- C9: empty listing.  For both analyzers and every resource group, if the
listing returns no error and zero descriptors (a nil or an empty slice),
`Review` returns the empty, non-nil slice and no error, whatever diagnostics
checker `ds` the analyzer holds. -/
theorem empty_listing_returns_empty :
    (∀ (parseLocation : Option String → Option String) (c : CosmosDBAnalyzer)
        (ds : DiagnosticsSettings) (rg : String),
      (c.listDatabases rg).2 = none →
      (c.listDatabases rg).1.getD [] = [] →
      CosmosDBAnalyzer.Review parseLocation { c with diagnosticsSettings := ds } rg =
        .returned (some []) none) ∧
    (∀ (parseLocation : Option String → Option String) (c : SignalRAnalyzer)
        (ds : DiagnosticsSettings) (rg : String),
      (c.listSignalR rg).2 = none →
      (c.listSignalR rg).1.getD [] = [] →
      SignalRAnalyzer.Review parseLocation { c with diagnosticsSettings := ds } rg =
        .returned (some []) none) := by
  constructor
  · intro parseLocation c ds rg herr hnil
    have h1 : (CosmosDBAnalyzer.listDatabases { c with diagnosticsSettings := ds } rg).2 = none :=
      herr
    have h2 : (CosmosDBAnalyzer.listDatabases { c with diagnosticsSettings := ds } rg).1.getD []
        = [] := hnil
    rw [CosmosDBAnalyzer.Review_listing_ok parseLocation _ rg h1, h2]
    rfl
  · intro parseLocation c ds rg herr hnil
    have h1 : (SignalRAnalyzer.listSignalR { c with diagnosticsSettings := ds } rg).2 = none :=
      herr
    have h2 : (SignalRAnalyzer.listSignalR { c with diagnosticsSettings := ds } rg).1.getD []
        = [] := hnil
    rw [SignalRAnalyzer.signalrReview_listing_ok parseLocation _ rg h1, h2]
    rfl

/-- Witness of C9: a CosmosDB listing hook that returns the nil slice and a
SignalR hook that returns the empty slice, with a checker that fails. -/
theorem empty_listing_returns_empty_witness :
    CosmosDBAnalyzer.Review sampleParseLocation
        { sampleCosmos none none with diagnosticsSettings := failingChecker } "rg" =
      .returned (some []) none ∧
    SignalRAnalyzer.Review sampleParseLocation
        { sampleSignalRAnalyzer (some []) none with diagnosticsSettings := failingChecker }
        "rg" =
      .returned (some []) none :=
  ⟨empty_listing_returns_empty.1 sampleParseLocation (sampleCosmos none none) failingChecker
      "rg" (by decide) (by decide),
   empty_listing_returns_empty.2 sampleParseLocation (sampleSignalRAnalyzer (some []) none)
      failingChecker "rg" (by decide) (by decide)⟩

/-! ## The naming check -/

/-- C10: naming check.  For both analyzers, whenever `Review` succeeds, the
record of the descriptor at position `i` with display name `name` has
`CAFNaming` true if and only if `name` is the service prefix ("cosmos" for
CosmosDB, "sigr" for SignalR) followed by some rest, that is, begins with it at
position 0, case-sensitively.  The check is the total Boolean function
`strings.HasPrefix`; on "Cosmos-db1" with "cosmos" it is false and on
"cosmos-db1" it is true. -/
theorem naming_check_exact_start :
    (∀ (parseLocation : Option String → Option String) (c : CosmosDBAnalyzer) (rg : String)
        (rs : List AzureServiceResult) (i : Nat) (db : armcosmos.DatabaseAccountGetResults)
        (name : String),
      CosmosDBAnalyzer.Review parseLocation c rg = .returned (some rs) none →
      ((c.listDatabases rg).1.getD [])[i]? = some (some db) →
      db.Name = some name →
      ∃ r, rs[i]? = some r ∧ r.CAFNaming = strings.HasPrefix name "cosmos" ∧
        (r.CAFNaming = true ↔ ∃ rest : String, name = "cosmos" ++ rest)) ∧
    (∀ (parseLocation : Option String → Option String) (c : SignalRAnalyzer) (rg : String)
        (rs : List AzureServiceResult) (i : Nat) (s : armsignalr.ResourceInfo)
        (name : String),
      SignalRAnalyzer.Review parseLocation c rg = .returned (some rs) none →
      ((c.listSignalR rg).1.getD [])[i]? = some (some s) →
      s.Name = some name →
      ∃ r, rs[i]? = some r ∧ r.CAFNaming = strings.HasPrefix name "sigr" ∧
        (r.CAFNaming = true ↔ ∃ rest : String, name = "sigr" ++ rest)) ∧
    strings.HasPrefix "Cosmos-db1" "cosmos" = false ∧
    strings.HasPrefix "cosmos-db1" "cosmos" = true := by
  refine ⟨?_, ?_, by decide, by decide⟩
  · intro parseLocation c rg rs i db name hrev hdb hname
    obtain ⟨r, hr, hb⟩ := CosmosDBAnalyzer.Review_record parseLocation c rg rs hrev i _ hdb
    obtain ⟨db2, id, b, p, v, name2, offer, ty, loc, h1, -, -, -, -, hn, -, -, -, rfl⟩ :=
      (CosmosDBAnalyzer.reviewDatabase_ok_iff parseLocation c rg _ r).mp hb
    cases h1
    rw [hname] at hn
    cases hn
    exact ⟨_, hr, rfl, strings.HasPrefix_iff name "cosmos"⟩
  · intro parseLocation c rg rs i s name hrev hs hname
    obtain ⟨r, hr, hb⟩ := SignalRAnalyzer.signalrReview_record parseLocation c rg rs hrev i _ hs
    obtain ⟨s2, id, b, skuRef, sku, name2, ty, loc, p, h1, -, -, -, -, hn, -, -, -, rfl⟩ :=
      (SignalRAnalyzer.reviewSignalR_ok_iff parseLocation c rg _ r).mp hb
    cases h1
    rw [hname] at hn
    cases hn
    exact ⟨_, hr, rfl, strings.HasPrefix_iff name "sigr"⟩

/-- Witness of C10: the sample database named "Cosmos-db1" and the sample
SignalR resource named "sigr-chat". -/
theorem naming_check_exact_start_witness :
    (∃ r, sampleRecords[0]? = some r ∧ r.CAFNaming = strings.HasPrefix "Cosmos-db1" "cosmos" ∧
      (r.CAFNaming = true ↔ ∃ rest : String, "Cosmos-db1" = "cosmos" ++ rest)) ∧
    (∃ r, sampleSignalRRecords[0]? = some r ∧
      r.CAFNaming = strings.HasPrefix "sigr-chat" "sigr" ∧
      (r.CAFNaming = true ↔ ∃ rest : String, "sigr-chat" = "sigr" ++ rest)) :=
  ⟨naming_check_exact_start.1 sampleParseLocation (sampleCosmos (some sampleDatabases) none)
      "rg" sampleRecords 0 (sampleAccount "/db/a" "Cosmos-db1" [false]) "Cosmos-db1"
      (by decide) (by decide) rfl,
   naming_check_exact_start.2.1 sampleParseLocation
      (sampleSignalRAnalyzer (some sampleSignalRs) none)
      "rg" sampleSignalRRecords 0 (sampleResourceInfo "/db/b" "sigr-chat" "Premium_P1")
      "sigr-chat" (by decide) (by decide) rfl⟩

/-! ## Lemmas on the substring test and on aborts of the loop bodies -/

theorem strings.Contains_iff (s substr : String) :
    strings.Contains s substr = true ↔ ∃ a b : String, s = a ++ substr ++ b := by
  unfold strings.Contains
  simp only [List.any_eq_true, List.mem_tails, List.isPrefixOf_iff_prefix]
  constructor
  · rintro ⟨t, ⟨a, ha⟩, ⟨b, hb⟩⟩
    refine ⟨String.mk a, String.mk b, ?_⟩
    apply String.ext
    simp only [String.data_append]
    have h1 : s.data = a ++ t := ha.symm
    rw [h1, ← hb]
    simp [String.toList]
  · rintro ⟨a, b, rfl⟩
    refine ⟨substr.toList ++ b.toList, ⟨a.toList, ?_⟩, ⟨b.toList, rfl⟩⟩
    simp [String.toList]

theorem CosmosDBAnalyzer.locationLoop_error :
    ∀ (locations : List (Option armcosmos.Location)) (v : ZoneVars) (a : Abort),
      CosmosDBAnalyzer.locationLoop locations v = .error a → a = .panic := by
  intro locations
  induction locations with
  | nil => intro v a h; simp [CosmosDBAnalyzer.locationLoop] at h
  | cons l ls ih =>
    intro v a h
    cases l with
    | none =>
      simp only [CosmosDBAnalyzer.locationLoop, Except.error.injEq] at h
      exact h.symm
    | some loc =>
      cases hz : loc.IsZoneRedundant with
      | none =>
        simp only [CosmosDBAnalyzer.locationLoop, hz, Except.error.injEq] at h
        exact h.symm
      | some b =>
        simp only [CosmosDBAnalyzer.locationLoop, hz] at h
        cases b with
        | true =>
          simp only [if_true] at h
          exact ih _ _ h
        | false =>
          simp only [Bool.false_eq_true, if_false] at h
          exact ih _ _ h

theorem CosmosDBAnalyzer.zoneRule_error (locations : List (Option armcosmos.Location))
    (a : Abort) (h : CosmosDBAnalyzer.zoneRule locations = .error a) : a = .panic := by
  unfold CosmosDBAnalyzer.zoneRule at h
  cases hl : CosmosDBAnalyzer.locationLoop locations CosmosDBAnalyzer.zoneInit with
  | error b =>
    rw [hl] at h
    simp only [Except.error.injEq] at h
    subst h
    exact CosmosDBAnalyzer.locationLoop_error _ _ _ hl
  | ok w => rw [hl] at h; cases h

theorem CosmosDBAnalyzer.reviewDatabase_err (parseLocation : Option String → Option String)
    (c : CosmosDBAnalyzer) (rg : String)
    (database : Option armcosmos.DatabaseAccountGetResults) (e : Error)
    (h : CosmosDBAnalyzer.reviewDatabase parseLocation c rg database = .error (.err e)) :
    ∃ db id b, database = some db ∧ db.ID = some id ∧
      c.diagnosticsSettings.HasDiagnostics id = (b, some e) := by
  unfold CosmosDBAnalyzer.reviewDatabase at h
  cases database with
  | none => simp at h
  | some db =>
    cases hid : db.ID with
    | none => simp [hid] at h
    | some id =>
      rcases hd : c.diagnosticsSettings.HasDiagnostics id with ⟨b, _ | e2⟩
      · exfalso
        cases hp : db.Properties with
        | none => simp [hid, hd, hp] at h
        | some p =>
          cases hz : CosmosDBAnalyzer.zoneRule p.Locations with
          | error a =>
            have ha := CosmosDBAnalyzer.zoneRule_error _ a hz
            subst ha
            simp [hid, hd, hp, hz] at h
          | ok v =>
            cases hn : db.Name with
            | none => simp [hid, hd, hp, hz, hn] at h
            | some name =>
              cases ho : p.DatabaseAccountOfferType with
              | none => simp [hid, hd, hp, hz, hn, ho] at h
              | some offer =>
                cases ht : db.Type_ with
                | none => simp [hid, hd, hp, hz, hn, ho, ht] at h
                | some ty =>
                  cases hloc : parseLocation db.Location with
                  | none => simp [hid, hd, hp, hz, hn, ho, ht, hloc] at h
                  | some loc => simp [hid, hd, hp, hz, hn, ho, ht, hloc] at h
      · simp only [hid, hd, Except.error.injEq, Abort.err.injEq] at h
        subst h
        exact ⟨db, id, b, rfl, hid, hd⟩

theorem SignalRAnalyzer.reviewSignalR_err (parseLocation : Option String → Option String)
    (c : SignalRAnalyzer) (rg : String)
    (signalr : Option armsignalr.ResourceInfo) (e : Error)
    (h : SignalRAnalyzer.reviewSignalR parseLocation c rg signalr = .error (.err e)) :
    ∃ s id b, signalr = some s ∧ s.ID = some id ∧
      c.diagnosticsSettings.HasDiagnostics id = (b, some e) := by
  unfold SignalRAnalyzer.reviewSignalR at h
  cases signalr with
  | none => simp at h
  | some s =>
    cases hid : s.ID with
    | none => simp [hid] at h
    | some id =>
      rcases hd : c.diagnosticsSettings.HasDiagnostics id with ⟨b, _ | e2⟩
      · exfalso
        cases hs : s.SKU with
        | none => simp [hid, hd, hs] at h
        | some skuRef =>
          cases hk : skuRef.Name with
          | none => simp [hid, hd, hs, hk] at h
          | some sku =>
            cases hn : s.Name with
            | none => simp [hid, hd, hs, hk, hn] at h
            | some name =>
              cases ht : s.Type_ with
              | none => simp [hid, hd, hs, hk, hn, ht] at h
              | some ty =>
                cases hloc : parseLocation s.Location with
                | none => simp [hid, hd, hs, hk, hn, ht, hloc] at h
                | some loc =>
                  cases hp : s.Properties with
                  | none => simp [hid, hd, hs, hk, hn, ht, hloc, hp] at h
                  | some p => simp [hid, hd, hs, hk, hn, ht, hloc, hp] at h
      · simp only [hid, hd, Except.error.injEq, Abort.err.injEq] at h
        subst h
        exact ⟨s, id, b, rfl, hid, hd⟩

theorem CosmosDBAnalyzer.specSla_congr (L M : List Bool) (hlen : L.length = M.length)
    (hmem : ∀ b, b ∈ L ↔ b ∈ M) :
    CosmosDBAnalyzer.specSla L = CosmosDBAnalyzer.specSla M ∧ L.any id = M.any id := by
  have hall : (∀ b ∈ L, b = true) ↔ (∀ b ∈ M, b = true) :=
    ⟨fun h b hb => h b ((hmem b).mpr hb), fun h b hb => h b ((hmem b).mp hb)⟩
  have hex : (∃ b ∈ L, b = true) ↔ (∃ b ∈ M, b = true) :=
    ⟨fun ⟨b, hb, h⟩ => ⟨b, (hmem b).mp hb, h⟩, fun ⟨b, hb, h⟩ => ⟨b, (hmem b).mpr hb, h⟩⟩
  constructor
  · unfold CosmosDBAnalyzer.specSla
    simp only [hlen, hall, hex]
  · cases h1 : L.any id <;> cases h2 : M.any id <;> try rfl
    · simp only [List.any_eq_true, id] at h2
      obtain ⟨b, hb, h⟩ := h2
      have : L.any id = true := by
        simp only [List.any_eq_true, id]
        exact ⟨b, (hmem b).mpr hb, h⟩
      rw [h1] at this
      cases this
    · simp only [List.any_eq_true, id] at h1
      obtain ⟨b, hb, h⟩ := h1
      have : M.any id = true := by
        simp only [List.any_eq_true, id]
        exact ⟨b, (hmem b).mp hb, h⟩
      rw [h2] at this
      cases this

theorem CosmosDBAnalyzer.Review_record_fields (parseLocation : Option String → Option String)
    (c : CosmosDBAnalyzer) (rg : String) (rs : List AzureServiceResult) (i : Nat)
    (db : armcosmos.DatabaseAccountGetResults)
    (h : CosmosDBAnalyzer.Review parseLocation c rg = .returned (some rs) none)
    (hd : ((c.listDatabases rg).1.getD [])[i]? = some (some db)) :
    ∃ id hasDiagnostics properties v name offerType type location,
      db.ID = some id ∧
      c.diagnosticsSettings.HasDiagnostics id = (hasDiagnostics, none) ∧
      db.Properties = some properties ∧
      CosmosDBAnalyzer.zoneRule properties.Locations = .ok v ∧
      db.Name = some name ∧ properties.DatabaseAccountOfferType = some offerType ∧
      db.Type_ = some type ∧ parseLocation db.Location = some location ∧
      rs[i]? = some
        { SubscriptionId := c.subscriptionId
          ResourceGroup := rg
          ServiceName := name
          Sku := offerType
          Sla := v.sla
          Type_ := type
          Location := location
          CAFNaming := strings.HasPrefix name "cosmos"
          AvailabilityZones := v.availabilityZones
          PrivateEndpoints := decide (properties.PrivateEndpointConnections.length > 0)
          DiagnosticSettings := hasDiagnostics } := by
  obtain ⟨r, hr, hb⟩ := CosmosDBAnalyzer.Review_record parseLocation c rg rs h i _ hd
  obtain ⟨db2, id, b, p, v, name, offer, ty, loc, h1, h2, h3, h4, h5, h6, h7, h8, h9, rfl⟩ :=
    (CosmosDBAnalyzer.reviewDatabase_ok_iff parseLocation c rg _ r).mp hb
  cases h1
  exact ⟨id, b, p, v, name, offer, ty, loc, h2, h3, h4, h5, h6, h7, h8, h9, hr⟩

theorem SignalRAnalyzer.signalrReview_record_fields
    (parseLocation : Option String → Option String)
    (c : SignalRAnalyzer) (rg : String) (rs : List AzureServiceResult) (i : Nat)
    (s : armsignalr.ResourceInfo)
    (h : SignalRAnalyzer.Review parseLocation c rg = .returned (some rs) none)
    (hd : ((c.listSignalR rg).1.getD [])[i]? = some (some s)) :
    ∃ id hasDiagnostics skuRef sku name type location properties,
      s.ID = some id ∧
      c.diagnosticsSettings.HasDiagnostics id = (hasDiagnostics, none) ∧
      s.SKU = some skuRef ∧ skuRef.Name = some sku ∧
      s.Name = some name ∧ s.Type_ = some type ∧
      parseLocation s.Location = some location ∧ s.Properties = some properties ∧
      rs[i]? = some
        { SubscriptionId := c.subscriptionId
          ResourceGroup := rg
          ServiceName := name
          Sku := sku
          Sla := "99.9%"
          Type_ := type
          Location := location
          CAFNaming := strings.HasPrefix name "sigr"
          AvailabilityZones := strings.Contains sku "Premium"
          PrivateEndpoints := decide (properties.PrivateEndpointConnections.length > 0)
          DiagnosticSettings := hasDiagnostics } := by
  obtain ⟨r, hr, hb⟩ := SignalRAnalyzer.signalrReview_record parseLocation c rg rs h i _ hd
  obtain ⟨s2, id, b, skuRef, sku, name, ty, loc, p, h1, h2, h3, h4, h5, h6, h7, h8, h9, rfl⟩ :=
    (SignalRAnalyzer.reviewSignalR_ok_iff parseLocation c rg _ r).mp hb
  cases h1
  exact ⟨id, b, skuRef, sku, name, ty, loc, p, h2, h3, h4, h5, h6, h7, h8, h9, hr⟩

/-! ## Private endpoints, the SignalR rule and the diagnostics flag -/

/-- C11: private-endpoint flag.  For both analyzers, whenever `Review`
succeeds, the record of the descriptor at position `i` has `PrivateEndpoints`
equal to the test "the number of private-endpoint connection references is
above zero": false for zero references, true for one or more.  The value is a
function of the count alone; the references themselves are not read. -/
theorem private_endpoints_by_count :
    (∀ (parseLocation : Option String → Option String) (c : CosmosDBAnalyzer) (rg : String)
        (rs : List AzureServiceResult) (i : Nat) (db : armcosmos.DatabaseAccountGetResults)
        (p : armcosmos.DatabaseAccountGetProperties),
      CosmosDBAnalyzer.Review parseLocation c rg = .returned (some rs) none →
      ((c.listDatabases rg).1.getD [])[i]? = some (some db) →
      db.Properties = some p →
      ∃ r, rs[i]? = some r ∧
        r.PrivateEndpoints = decide (0 < p.PrivateEndpointConnections.length) ∧
        (p.PrivateEndpointConnections.length = 0 → r.PrivateEndpoints = false) ∧
        (1 ≤ p.PrivateEndpointConnections.length → r.PrivateEndpoints = true)) ∧
    (∀ (parseLocation : Option String → Option String) (c : SignalRAnalyzer) (rg : String)
        (rs : List AzureServiceResult) (i : Nat) (s : armsignalr.ResourceInfo)
        (p : armsignalr.Properties),
      SignalRAnalyzer.Review parseLocation c rg = .returned (some rs) none →
      ((c.listSignalR rg).1.getD [])[i]? = some (some s) →
      s.Properties = some p →
      ∃ r, rs[i]? = some r ∧
        r.PrivateEndpoints = decide (0 < p.PrivateEndpointConnections.length) ∧
        (p.PrivateEndpointConnections.length = 0 → r.PrivateEndpoints = false) ∧
        (1 ≤ p.PrivateEndpointConnections.length → r.PrivateEndpoints = true)) := by
  constructor
  · intro parseLocation c rg rs i db p hrev hdb hp
    obtain ⟨id, b, p2, v, name, offer, ty, loc, -, -, h3, -, -, -, -, -, hr⟩ :=
      CosmosDBAnalyzer.Review_record_fields parseLocation c rg rs i db hrev hdb
    rw [hp] at h3
    cases h3
    refine ⟨_, hr, rfl, ?_, ?_⟩
    · intro h0
      simp [h0]
    · intro h1
      simp only [gt_iff_lt, decide_eq_true_eq]
      omega
  · intro parseLocation c rg rs i s p hrev hs hp
    obtain ⟨id, b, skuRef, sku, name, ty, loc, p2, -, -, -, -, -, -, -, h8, hr⟩ :=
      SignalRAnalyzer.signalrReview_record_fields parseLocation c rg rs i s hrev hs
    rw [hp] at h8
    cases h8
    refine ⟨_, hr, rfl, ?_, ?_⟩
    · intro h0
      simp [h0]
    · intro h1
      simp only [gt_iff_lt, decide_eq_true_eq]
      omega

/-- Witness of C11: a sample database with two connection references, one of
them a nil pointer, and a sample SignalR resource with none. -/
theorem private_endpoints_by_count_witness :
    (∃ r, sampleRecords2[0]? = some r ∧
      r.PrivateEndpoints = decide (0 < [sampleEndpoint, none].length) ∧
      ([sampleEndpoint, none].length = 0 → r.PrivateEndpoints = false) ∧
      (1 ≤ [sampleEndpoint, none].length → r.PrivateEndpoints = true)) ∧
    (∃ r, sampleSignalRRecords[1]? = some r ∧
      r.PrivateEndpoints =
        decide (0 < ([] : List (Option armsignalr.PrivateEndpointConnection)).length) ∧
      (([] : List (Option armsignalr.PrivateEndpointConnection)).length = 0 →
        r.PrivateEndpoints = false) ∧
      (1 ≤ ([] : List (Option armsignalr.PrivateEndpointConnection)).length →
        r.PrivateEndpoints = true)) :=
  ⟨private_endpoints_by_count.1 sampleParseLocation (sampleCosmos (some sampleDatabases2) none)
      "rg" sampleRecords2 0
      (sampleAccountWithEndpoints "/db/e" "cosmos-e" [false, true, true] [sampleEndpoint, none])
      { DatabaseAccountOfferType := some "Standard"
        Locations := [false, true, true].map sampleLocation
        PrivateEndpointConnections := [sampleEndpoint, none] }
      (by decide) (by decide) rfl,
   private_endpoints_by_count.2 sampleParseLocation
      (sampleSignalRAnalyzer (some sampleSignalRs) none) "rg" sampleSignalRRecords 1
      (sampleResourceInfo "/sigr/2" "Sigr-chat" "Free_F1")
      { PrivateEndpointConnections := [] }
      (by decide) (by decide) rfl⟩

/-- C12: zone rule of `SignalRAnalyzer.Review`.  Whenever `Review` succeeds,
the record of the resource at position `i` with SKU name `sku` has
`AvailabilityZones` true if and only if `sku` contains "Premium" as a
substring, at any position and case-sensitively.  The test is true on
"Premium_P1" and false on "Free_F1". -/
theorem signalr_zones_iff_premium (parseLocation : Option String → Option String)
    (c : SignalRAnalyzer) (rg : String) (rs : List AzureServiceResult) (i : Nat)
    (s : armsignalr.ResourceInfo) (skuRef : armsignalr.ResourceSKU) (sku : String)
    (hrev : SignalRAnalyzer.Review parseLocation c rg = .returned (some rs) none)
    (hs : ((c.listSignalR rg).1.getD [])[i]? = some (some s))
    (hsku : s.SKU = some skuRef) (hname : skuRef.Name = some sku) :
    (∃ r, rs[i]? = some r ∧ r.AvailabilityZones = strings.Contains sku "Premium" ∧
      (r.AvailabilityZones = true ↔ ∃ a b : String, sku = a ++ "Premium" ++ b)) ∧
    strings.Contains "Premium_P1" "Premium" = true ∧
    strings.Contains "Free_F1" "Premium" = false := by
  refine ⟨?_, by decide, by decide⟩
  obtain ⟨id, b, skuRef2, sku2, name, ty, loc, p, -, -, h3, h4, -, -, -, -, hr⟩ :=
    SignalRAnalyzer.signalrReview_record_fields parseLocation c rg rs i s hrev hs
  rw [hsku] at h3
  cases h3
  rw [hname] at h4
  cases h4
  exact ⟨_, hr, rfl, strings.Contains_iff sku "Premium"⟩

/-- Witness of C12: the sample SignalR resource with SKU "Premium_P1". -/
theorem signalr_zones_iff_premium_witness :
    (∃ r, sampleSignalRRecords[0]? = some r ∧
      r.AvailabilityZones = strings.Contains "Premium_P1" "Premium" ∧
      (r.AvailabilityZones = true ↔ ∃ a b : String, "Premium_P1" = a ++ "Premium" ++ b)) ∧
    strings.Contains "Premium_P1" "Premium" = true ∧
    strings.Contains "Free_F1" "Premium" = false :=
  signalr_zones_iff_premium sampleParseLocation (sampleSignalRAnalyzer (some sampleSignalRs) none)
    "rg" sampleSignalRRecords 0 (sampleResourceInfo "/db/b" "sigr-chat" "Premium_P1")
    { Name := some "Premium_P1" } "Premium_P1" (by decide) (by decide) rfl rfl

/-- C13: fixed SLA of `SignalRAnalyzer.Review`.  Whenever `Review` succeeds,
the record of the resource at position `i` with SKU name `sku`, premium or
not, has `Sla` "99.9%" and `Sku` equal to `sku`, unchanged. -/
theorem signalr_fixed_sla (parseLocation : Option String → Option String)
    (c : SignalRAnalyzer) (rg : String) (rs : List AzureServiceResult) (i : Nat)
    (s : armsignalr.ResourceInfo) (skuRef : armsignalr.ResourceSKU) (sku : String)
    (hrev : SignalRAnalyzer.Review parseLocation c rg = .returned (some rs) none)
    (hs : ((c.listSignalR rg).1.getD [])[i]? = some (some s))
    (hsku : s.SKU = some skuRef) (hname : skuRef.Name = some sku) :
    ∃ r, rs[i]? = some r ∧ r.Sla = "99.9%" ∧ r.Sku = sku := by
  obtain ⟨id, b, skuRef2, sku2, name, ty, loc, p, -, -, h3, h4, -, -, -, -, hr⟩ :=
    SignalRAnalyzer.signalrReview_record_fields parseLocation c rg rs i s hrev hs
  rw [hsku] at h3
  cases h3
  rw [hname] at h4
  cases h4
  exact ⟨_, hr, rfl, rfl⟩

/-- Witness of C13: the sample SignalR resource with the free SKU. -/
theorem signalr_fixed_sla_witness :
    ∃ r, sampleSignalRRecords[1]? = some r ∧ r.Sla = "99.9%" ∧ r.Sku = "Free_F1" :=
  signalr_fixed_sla sampleParseLocation (sampleSignalRAnalyzer (some sampleSignalRs) none)
    "rg" sampleSignalRRecords 1 (sampleResourceInfo "/sigr/2" "Sigr-chat" "Free_F1")
    { Name := some "Free_F1" } "Free_F1" (by decide) (by decide) rfl rfl

/-- C14: diagnostics flag.  For both analyzers, whenever `Review` succeeds, the
record of the descriptor at position `i` with identifier `id` has
`DiagnosticSettings` equal to the boolean that the diagnostics checker returns
on `id` (the resource identifier, not the display name). -/
theorem diagnostics_flag_by_id :
    (∀ (parseLocation : Option String → Option String) (c : CosmosDBAnalyzer) (rg : String)
        (rs : List AzureServiceResult) (i : Nat) (db : armcosmos.DatabaseAccountGetResults)
        (id : String),
      CosmosDBAnalyzer.Review parseLocation c rg = .returned (some rs) none →
      ((c.listDatabases rg).1.getD [])[i]? = some (some db) →
      db.ID = some id →
      ∃ r, rs[i]? = some r ∧
        r.DiagnosticSettings = (c.diagnosticsSettings.HasDiagnostics id).1) ∧
    (∀ (parseLocation : Option String → Option String) (c : SignalRAnalyzer) (rg : String)
        (rs : List AzureServiceResult) (i : Nat) (s : armsignalr.ResourceInfo)
        (id : String),
      SignalRAnalyzer.Review parseLocation c rg = .returned (some rs) none →
      ((c.listSignalR rg).1.getD [])[i]? = some (some s) →
      s.ID = some id →
      ∃ r, rs[i]? = some r ∧
        r.DiagnosticSettings = (c.diagnosticsSettings.HasDiagnostics id).1) := by
  constructor
  · intro parseLocation c rg rs i db id hrev hdb hid
    obtain ⟨id2, b, p, v, name, offer, ty, loc, h1, h2, -, -, -, -, -, -, hr⟩ :=
      CosmosDBAnalyzer.Review_record_fields parseLocation c rg rs i db hrev hdb
    rw [hid] at h1
    cases h1
    exact ⟨_, hr, by rw [h2]⟩
  · intro parseLocation c rg rs i s id hrev hs hid
    obtain ⟨id2, b, skuRef, sku, name, ty, loc, p, h1, h2, -, -, -, -, -, -, hr⟩ :=
      SignalRAnalyzer.signalrReview_record_fields parseLocation c rg rs i s hrev hs
    rw [hid] at h1
    cases h1
    exact ⟨_, hr, by rw [h2]⟩

/-- Witness of C14: `sampleChecker` answers true on the identifier "/db/b" and
false on the names "cosmos-db1" and "sigr-chat"; the records carry true. -/
theorem diagnostics_flag_by_id_witness :
    (∃ r, sampleRecords[1]? = some r ∧
      r.DiagnosticSettings = (sampleChecker.HasDiagnostics "/db/b").1) ∧
    (∃ r, sampleSignalRRecords[0]? = some r ∧
      r.DiagnosticSettings = (sampleChecker.HasDiagnostics "/db/b").1) ∧
    (sampleChecker.HasDiagnostics "/db/b").1 = true ∧
    (sampleChecker.HasDiagnostics "cosmos-db1").1 = false ∧
    (sampleChecker.HasDiagnostics "sigr-chat").1 = false :=
  ⟨diagnostics_flag_by_id.1 sampleParseLocation (sampleCosmos (some sampleDatabases) none)
      "rg" sampleRecords 1 (sampleAccount "/db/b" "cosmos-db1" [true, true]) "/db/b"
      (by decide) (by decide) rfl,
   diagnostics_flag_by_id.2 sampleParseLocation
      (sampleSignalRAnalyzer (some sampleSignalRs) none) "rg" sampleSignalRRecords 0
      (sampleResourceInfo "/db/b" "sigr-chat" "Premium_P1") "/db/b"
      (by decide) (by decide) rfl,
   by decide, by decide, by decide⟩

theorem forall₂_of_forall_exists {α β : Type} {R : α → β → Prop} :
    ∀ {xs : List α}, (∀ x ∈ xs, ∃ y, R x y) → ∃ ys, List.Forall₂ R xs ys := by
  intro xs
  induction xs with
  | nil => intro _; exact ⟨[], List.Forall₂.nil⟩
  | cons x xs ih =>
    intro h
    obtain ⟨y, hy⟩ := h x (by simp)
    obtain ⟨ys, hys⟩ := ih (fun z hz => h z (by simp [hz]))
    exact ⟨y :: ys, List.Forall₂.cons hy hys⟩

/-! ## Totality and the identity fields -/

/-- C15: totality over well-formed input.  For both analyzers: (1) if the
listing succeeds and every listed descriptor is well formed (identifier, name,
resource type, offer type or SKU name, properties, and each location with its
zone-redundancy flag are present, and the package function `parseLocation`
returns on its location) and its lookup succeeds, then `Review` returns a
result slice and no error, so no nil dereference is reached; (2) if `Review`
returns an error `e`, the result slice is nil and `e` is the error of the
listing or the error of the lookup of some listed resource. -/
theorem review_total_on_well_formed :
    (∀ (parseLocation : Option String → Option String) (c : CosmosDBAnalyzer) (rg : String),
      (c.listDatabases rg).2 = none →
      (∀ y ∈ (c.listDatabases rg).1.getD [], ∃ db id b, y = some db ∧
        db.wellFormed parseLocation = true ∧ db.ID = some id ∧
        c.diagnosticsSettings.HasDiagnostics id = (b, none)) →
      ∃ rs, CosmosDBAnalyzer.Review parseLocation c rg = .returned (some rs) none) ∧
    (∀ (parseLocation : Option String → Option String) (c : CosmosDBAnalyzer) (rg : String)
        (res : Option (List AzureServiceResult)) (e : Error),
      CosmosDBAnalyzer.Review parseLocation c rg = .returned res (some e) →
      res = none ∧
      ((c.listDatabases rg).2 = some e ∨
        ∃ y ∈ (c.listDatabases rg).1.getD [], ∃ db id b, y = some db ∧ db.ID = some id ∧
          c.diagnosticsSettings.HasDiagnostics id = (b, some e))) ∧
    (∀ (parseLocation : Option String → Option String) (c : SignalRAnalyzer) (rg : String),
      (c.listSignalR rg).2 = none →
      (∀ y ∈ (c.listSignalR rg).1.getD [], ∃ s id b, y = some s ∧
        s.wellFormed parseLocation = true ∧ s.ID = some id ∧
        c.diagnosticsSettings.HasDiagnostics id = (b, none)) →
      ∃ rs, SignalRAnalyzer.Review parseLocation c rg = .returned (some rs) none) ∧
    (∀ (parseLocation : Option String → Option String) (c : SignalRAnalyzer) (rg : String)
        (res : Option (List AzureServiceResult)) (e : Error),
      SignalRAnalyzer.Review parseLocation c rg = .returned res (some e) →
      res = none ∧
      ((c.listSignalR rg).2 = some e ∨
        ∃ y ∈ (c.listSignalR rg).1.getD [], ∃ s id b, y = some s ∧ s.ID = some id ∧
          c.diagnosticsSettings.HasDiagnostics id = (b, some e))) := by
  refine ⟨?_, ?_, ?_, ?_⟩
  · intro parseLocation c rg hlist hall
    have hbody : ∀ y ∈ (c.listDatabases rg).1.getD [],
        ∃ r, CosmosDBAnalyzer.reviewDatabase parseLocation c rg y = .ok r := by
      intro y hy
      obtain ⟨db, id, b, rfl, hw, hid, hd⟩ := hall y hy
      exact CosmosDBAnalyzer.reviewDatabase_ok_of_wellFormed parseLocation c rg db id b hw hid hd
    obtain ⟨rs, hrs⟩ := forall₂_of_forall_exists hbody
    exact ⟨rs, (CosmosDBAnalyzer.Review_ok_iff parseLocation c rg rs).mpr ⟨hlist, hrs⟩⟩
  · intro parseLocation c rg res e h
    cases hl : (c.listDatabases rg).2 with
    | some e2 =>
      rw [CosmosDBAnalyzer.Review_listing_error parseLocation c rg e2 hl] at h
      simp only [ReviewReturn.returned.injEq, Option.some.injEq] at h
      exact ⟨h.1.symm, Or.inl (by rw [h.2])⟩
    | none =>
      rw [CosmosDBAnalyzer.Review_listing_ok parseLocation c rg hl] at h
      rcases collectLoop_returned _ _ _ _ _ h with ⟨h1, e2, y, h2, h3, h4⟩ | ⟨h1, -⟩
      · cases h2
        exact ⟨h1, Or.inr ⟨y, h3, CosmosDBAnalyzer.reviewDatabase_err parseLocation c rg y e h4⟩⟩
      · cases h1
  · intro parseLocation c rg hlist hall
    have hbody : ∀ y ∈ (c.listSignalR rg).1.getD [],
        ∃ r, SignalRAnalyzer.reviewSignalR parseLocation c rg y = .ok r := by
      intro y hy
      obtain ⟨s, id, b, rfl, hw, hid, hd⟩ := hall y hy
      exact SignalRAnalyzer.reviewSignalR_ok_of_wellFormed parseLocation c rg s id b hw hid hd
    obtain ⟨rs, hrs⟩ := forall₂_of_forall_exists hbody
    exact ⟨rs, (SignalRAnalyzer.signalrReview_ok_iff parseLocation c rg rs).mpr ⟨hlist, hrs⟩⟩
  · intro parseLocation c rg res e h
    cases hl : (c.listSignalR rg).2 with
    | some e2 =>
      rw [SignalRAnalyzer.signalrReview_listing_error parseLocation c rg e2 hl] at h
      simp only [ReviewReturn.returned.injEq, Option.some.injEq] at h
      exact ⟨h.1.symm, Or.inl (by rw [h.2])⟩
    | none =>
      rw [SignalRAnalyzer.signalrReview_listing_ok parseLocation c rg hl] at h
      rcases collectLoop_returned _ _ _ _ _ h with ⟨h1, e2, y, h2, h3, h4⟩ | ⟨h1, -⟩
      · cases h2
        exact ⟨h1, Or.inr ⟨y, h3, SignalRAnalyzer.reviewSignalR_err parseLocation c rg y e h4⟩⟩
      · cases h1

/-- Witness of C15: the second sample listing and the sample SignalR listing
are well formed and `sampleChecker` succeeds on them; with `failingChecker`
the error that `Review` returns is the error of a lookup. -/
theorem review_total_on_well_formed_witness :
    (∃ rs, CosmosDBAnalyzer.Review sampleParseLocation
        (sampleCosmos (some sampleDatabases2) none) "rg" = .returned (some rs) none) ∧
    ((none : Option (List AzureServiceResult)) = none ∧
      (((sampleCosmos (some sampleDatabases) none).listDatabases "rg").2 = some "lookup failed" ∨
        ∃ y ∈ ((sampleCosmos (some sampleDatabases) none).listDatabases "rg").1.getD [],
          ∃ db id b, y = some db ∧ db.ID = some id ∧
            failingChecker.HasDiagnostics id = (b, some "lookup failed"))) ∧
    (∃ rs, SignalRAnalyzer.Review sampleParseLocation
        (sampleSignalRAnalyzer (some sampleSignalRs) none) "rg" = .returned (some rs) none) ∧
    ((none : Option (List AzureServiceResult)) = none ∧
      (((sampleSignalRAnalyzer (some sampleSignalRs) none).listSignalR "rg").2 =
          some "signalr lookup failed" ∨
        ∃ y ∈ ((sampleSignalRAnalyzer (some sampleSignalRs) none).listSignalR "rg").1.getD [],
          ∃ s id b, y = some s ∧ s.ID = some id ∧
            failingChecker.HasDiagnostics id = (b, some "signalr lookup failed"))) :=
  ⟨review_total_on_well_formed.1 sampleParseLocation
      (sampleCosmos (some sampleDatabases2) none) "rg" (by decide)
      (by
        intro y hy
        have hy2 : y ∈ sampleDatabases2 := hy
        simp only [sampleDatabases2, List.mem_cons, List.mem_singleton, List.not_mem_nil,
          or_false] at hy2
        rcases hy2 with rfl | rfl
        · exact ⟨sampleAccountWithEndpoints "/db/e" "cosmos-e" [false, true, true]
            [sampleEndpoint, none], "/db/e", false, rfl, by decide, rfl, by decide⟩
        · exact ⟨sampleAccount "/db/f" "cosmos-f" [true, true, true], "/db/f", false, rfl,
            by decide, rfl, by decide⟩),
   review_total_on_well_formed.2.1 sampleParseLocation
      { sampleCosmos (some sampleDatabases) none with diagnosticsSettings := failingChecker }
      "rg" none "lookup failed" (by decide),
   review_total_on_well_formed.2.2.1 sampleParseLocation
      (sampleSignalRAnalyzer (some sampleSignalRs) none) "rg" (by decide)
      (by
        intro y hy
        have hy2 : y ∈ sampleSignalRs := hy
        simp only [sampleSignalRs, List.mem_cons, List.mem_singleton, List.not_mem_nil,
          or_false] at hy2
        rcases hy2 with rfl | rfl
        · exact ⟨sampleResourceInfo "/db/b" "sigr-chat" "Premium_P1", "/db/b", true, rfl,
            by decide, rfl, by decide⟩
        · exact ⟨sampleResourceInfo "/sigr/2" "Sigr-chat" "Free_F1", "/sigr/2", false, rfl,
            by decide, rfl, by decide⟩),
   review_total_on_well_formed.2.2.2 sampleParseLocation
      { sampleSignalRAnalyzer (some sampleSignalRs) none with
        diagnosticsSettings := failingChecker }
      "rg" none "signalr lookup failed" (by decide)⟩

/-- C16: identity fields.  For both analyzers, whenever `Review` succeeds on the
resource group `rg`, the record of the descriptor at position `i` has
`SubscriptionId` equal to the subscription id of the analyzer, `ResourceGroup`
equal to `rg`, `ServiceName` and `Type` equal to the name and the resource
type of the descriptor, and `Sku` equal to the label the provider reports: the
offer type of the database account for CosmosDB, the SKU name for SignalR. -/
theorem identity_fields_copied :
    (∀ (parseLocation : Option String → Option String) (c : CosmosDBAnalyzer) (rg : String)
        (rs : List AzureServiceResult) (i : Nat) (db : armcosmos.DatabaseAccountGetResults)
        (p : armcosmos.DatabaseAccountGetProperties) (name type offerType : String),
      CosmosDBAnalyzer.Review parseLocation c rg = .returned (some rs) none →
      ((c.listDatabases rg).1.getD [])[i]? = some (some db) →
      db.Name = some name → db.Type_ = some type → db.Properties = some p →
      p.DatabaseAccountOfferType = some offerType →
      ∃ r, rs[i]? = some r ∧ r.SubscriptionId = c.subscriptionId ∧ r.ResourceGroup = rg ∧
        r.ServiceName = name ∧ r.Type_ = type ∧ r.Sku = offerType) ∧
    (∀ (parseLocation : Option String → Option String) (c : SignalRAnalyzer) (rg : String)
        (rs : List AzureServiceResult) (i : Nat) (s : armsignalr.ResourceInfo)
        (skuRef : armsignalr.ResourceSKU) (name type sku : String),
      SignalRAnalyzer.Review parseLocation c rg = .returned (some rs) none →
      ((c.listSignalR rg).1.getD [])[i]? = some (some s) →
      s.Name = some name → s.Type_ = some type → s.SKU = some skuRef →
      skuRef.Name = some sku →
      ∃ r, rs[i]? = some r ∧ r.SubscriptionId = c.subscriptionId ∧ r.ResourceGroup = rg ∧
        r.ServiceName = name ∧ r.Type_ = type ∧ r.Sku = sku) := by
  constructor
  · intro parseLocation c rg rs i db p name type offerType hrev hdb hname htype hp hoffer
    obtain ⟨id, b, p2, v, name2, offer2, ty2, loc, -, -, h3, -, h5, h6, h7, -, hr⟩ :=
      CosmosDBAnalyzer.Review_record_fields parseLocation c rg rs i db hrev hdb
    rw [hp] at h3
    cases h3
    rw [hname] at h5
    cases h5
    rw [hoffer] at h6
    cases h6
    rw [htype] at h7
    cases h7
    exact ⟨_, hr, rfl, rfl, rfl, rfl, rfl⟩
  · intro parseLocation c rg rs i s skuRef name type sku hrev hs hname htype hsku hskuName
    obtain ⟨id, b, skuRef2, sku2, name2, ty2, loc, p, -, -, h3, h4, h5, h6, -, -, hr⟩ :=
      SignalRAnalyzer.signalrReview_record_fields parseLocation c rg rs i s hrev hs
    rw [hsku] at h3
    cases h3
    rw [hskuName] at h4
    cases h4
    rw [hname] at h5
    cases h5
    rw [htype] at h6
    cases h6
    exact ⟨_, hr, rfl, rfl, rfl, rfl, rfl⟩

/-- Witness of C16: the second sample database and the first sample SignalR
resource, reviewed for the resource group "rg" with subscription "sub-1". -/
theorem identity_fields_copied_witness :
    (∃ r, sampleRecords[1]? = some r ∧ r.SubscriptionId = "sub-1" ∧ r.ResourceGroup = "rg" ∧
      r.ServiceName = "cosmos-db1" ∧ r.Type_ = "Microsoft.DocumentDB/databaseAccounts" ∧
      r.Sku = "Standard") ∧
    (∃ r, sampleSignalRRecords[0]? = some r ∧ r.SubscriptionId = "sub-1" ∧
      r.ResourceGroup = "rg" ∧ r.ServiceName = "sigr-chat" ∧
      r.Type_ = "Microsoft.SignalRService/SignalR" ∧ r.Sku = "Premium_P1") :=
  ⟨identity_fields_copied.1 sampleParseLocation (sampleCosmos (some sampleDatabases) none)
      "rg" sampleRecords 1 (sampleAccount "/db/b" "cosmos-db1" [true, true])
      (sampleProperties [true, true]) "cosmos-db1" "Microsoft.DocumentDB/databaseAccounts"
      "Standard" (by decide) (by decide) rfl rfl rfl rfl,
   identity_fields_copied.2 sampleParseLocation
      (sampleSignalRAnalyzer (some sampleSignalRs) none) "rg" sampleSignalRRecords 0
      (sampleResourceInfo "/db/b" "sigr-chat" "Premium_P1") { Name := some "Premium_P1" }
      "sigr-chat" "Microsoft.SignalRService/SignalR" "Premium_P1"
      (by decide) (by decide) rfl rfl rfl rfl⟩

/-! ## Lemmas on reordering and on changing locations -/

theorem list_any_congr_mem {α : Type} (f : α → Bool) (L M : List α)
    (hmem : ∀ b, b ∈ L ↔ b ∈ M) : L.any f = M.any f := by
  cases h1 : L.any f <;> cases h2 : M.any f <;> try rfl
  · simp only [List.any_eq_true] at h2
    obtain ⟨b, hb, h⟩ := h2
    have : L.any f = true := by
      simp only [List.any_eq_true]
      exact ⟨b, (hmem b).mpr hb, h⟩
    rw [h1] at this
    cases this
  · simp only [List.any_eq_true] at h1
    obtain ⟨b, hb, h⟩ := h1
    have : M.any f = true := by
      simp only [List.any_eq_true]
      exact ⟨b, (hmem b).mp hb, h⟩
    rw [h2] at this
    cases this

theorem list_eq_map_some {α : Type} :
    ∀ (xs : List (Option α)), (∀ x ∈ xs, ∃ a, x = some a) → ∃ L : List α, xs = L.map some := by
  intro xs
  induction xs with
  | nil => intro _; exact ⟨[], rfl⟩
  | cons x xs ih =>
    intro h
    obtain ⟨a, rfl⟩ := h x (by simp)
    obtain ⟨L, rfl⟩ := ih (fun z hz => h z (by simp [hz]))
    exact ⟨a :: L, rfl⟩

theorem armcosmos.zoneFlags_perm (l l2 : List (Option armcosmos.Location)) (L : List Bool)
    (hperm : l2.Perm l) (hL : armcosmos.zoneFlags l = L.map some) :
    ∃ M : List Bool, armcosmos.zoneFlags l2 = M.map some ∧ M.length = L.length ∧
      ∀ b, b ∈ M ↔ b ∈ L := by
  have hp : (armcosmos.zoneFlags l2).Perm (armcosmos.zoneFlags l) := hperm.map _
  have hsome : ∀ x ∈ armcosmos.zoneFlags l2, ∃ a, x = some a := by
    intro x hx
    have hx2 := hp.mem_iff.mp hx
    rw [hL] at hx2
    obtain ⟨a, -, ha⟩ := List.mem_map.mp hx2
    exact ⟨a, ha.symm⟩
  obtain ⟨M, hM⟩ := list_eq_map_some _ hsome
  refine ⟨M, hM, ?_, ?_⟩
  · have := hp.length_eq
    rw [hM, hL] at this
    simpa using this
  · intro b
    have := hp.mem_iff (a := some b)
    rw [hM, hL] at this
    simpa using this

theorem CosmosDBAnalyzer.zoneRule_perm (l l2 : List (Option armcosmos.Location))
    (hperm : l2.Perm l) : CosmosDBAnalyzer.zoneRule l2 = CosmosDBAnalyzer.zoneRule l := by
  have key : ∀ (a b : List (Option armcosmos.Location)) (v : ZoneVars), b.Perm a →
      CosmosDBAnalyzer.zoneRule a = .ok v → CosmosDBAnalyzer.zoneRule b = .ok v := by
    intro a b v hab ha
    obtain ⟨L, hL⟩ := CosmosDBAnalyzer.zoneRule_ok_flags a v ha
    obtain ⟨M, hM, hlen, hmem⟩ := armcosmos.zoneFlags_perm a b L hab hL
    rw [CosmosDBAnalyzer.zoneRule_flags a L hL] at ha
    rw [CosmosDBAnalyzer.zoneRule_flags b M hM, ← ha,
      (CosmosDBAnalyzer.specSla_congr M L hlen hmem).1,
      list_any_congr_mem id M L hmem, list_any_congr_mem (fun b => !b) M L hmem, hlen]
  cases h1 : CosmosDBAnalyzer.zoneRule l with
  | ok v => exact key l l2 v hperm h1
  | error a =>
    cases h2 : CosmosDBAnalyzer.zoneRule l2 with
    | ok w =>
      have := key l2 l w hperm.symm h2
      rw [h1] at this
      cases this
    | error a2 =>
      rw [CosmosDBAnalyzer.zoneRule_error l a h1, CosmosDBAnalyzer.zoneRule_error l2 a2 h2]

theorem CosmosDBAnalyzer.specSla_rank (L : List Bool) :
    (CosmosDBAnalyzer.specSla L = "99.99%" ∧ ∀ b ∈ L, b = false) ∨
    (CosmosDBAnalyzer.specSla L = "99.995%" ∧ ∃ b ∈ L, b = true) ∨
    (CosmosDBAnalyzer.specSla L = "99.999%" ∧ 2 ≤ L.length ∧ ∀ b ∈ L, b = true) := by
  by_cases hall : 2 ≤ L.length ∧ ∀ b ∈ L, b = true
  · exact Or.inr (Or.inr ⟨CosmosDBAnalyzer.specSla_all L hall.1 hall.2, hall⟩)
  · by_cases hex : ∃ b ∈ L, b = true
    · refine Or.inr (Or.inl ⟨?_, hex⟩)
      unfold CosmosDBAnalyzer.specSla
      rw [if_neg hall, if_pos hex]
    · refine Or.inl ⟨?_, ?_⟩
      · unfold CosmosDBAnalyzer.specSla
        rw [if_neg hall, if_neg hex]
      · intro b hb
        cases b with
        | false => rfl
        | true => exact absurd ⟨true, hb, rfl⟩ hex

theorem CosmosDBAnalyzer.specSla_raise (pre post : List Bool) :
    ∃ a b, slaRank (CosmosDBAnalyzer.specSla (pre ++ false :: post)) = some a ∧
      slaRank (CosmosDBAnalyzer.specSla (pre ++ true :: post)) = some b ∧ a ≤ b := by
  have r0 : slaRank "99.99%" = some 0 := by decide
  have r1 : slaRank "99.995%" = some 1 := by decide
  have r2 : slaRank "99.999%" = some 2 := by decide
  have hlow : CosmosDBAnalyzer.specSla (pre ++ false :: post) = "99.99%" ∨
      CosmosDBAnalyzer.specSla (pre ++ false :: post) = "99.995%" := by
    rcases CosmosDBAnalyzer.specSla_rank (pre ++ false :: post) with h | h | h
    · exact Or.inl h.1
    · exact Or.inr h.1
    · exact absurd (h.2.2 false (by simp)) (by decide)
  have hhigh := CosmosDBAnalyzer.specSla_some (pre ++ true :: post) ⟨true, by simp, rfl⟩
  rcases hlow with h | h <;> rcases hhigh with k | k <;> rw [h, k]
  · exact ⟨0, 1, r0, r1, by decide⟩
  · exact ⟨0, 2, r0, r2, by decide⟩
  · exact ⟨1, 1, r1, r1, by decide⟩
  · exact ⟨1, 2, r1, r2, by decide⟩

theorem armcosmos.zoneFlags_append (l m : List (Option armcosmos.Location)) :
    armcosmos.zoneFlags (l ++ m) = armcosmos.zoneFlags l ++ armcosmos.zoneFlags m := by
  simp [armcosmos.zoneFlags]

/-! ## Relational properties of the CosmosDB rule -/

/-- C17: the CosmosDB rule does not depend on the order of the locations.  For
a location slice `l2` that is a permutation of `l`, lines 51-67 yield the same
outcome on both; and whenever two calls of `Review` succeed, the record of a
database with locations `l` and the record of a database with locations `l2`
have the same `Sla` and the same `AvailabilityZones`. -/
theorem cosmos_rule_order_independent (l l2 : List (Option armcosmos.Location))
    (hperm : l2.Perm l) :
    CosmosDBAnalyzer.zoneRule l2 = CosmosDBAnalyzer.zoneRule l ∧
    ∀ (parseLocation : Option String → Option String) (c c2 : CosmosDBAnalyzer)
      (rg rg2 : String) (rs rs2 : List AzureServiceResult) (i j : Nat)
      (db db2 : armcosmos.DatabaseAccountGetResults)
      (p p2 : armcosmos.DatabaseAccountGetProperties),
      CosmosDBAnalyzer.Review parseLocation c rg = .returned (some rs) none →
      CosmosDBAnalyzer.Review parseLocation c2 rg2 = .returned (some rs2) none →
      ((c.listDatabases rg).1.getD [])[i]? = some (some db) →
      ((c2.listDatabases rg2).1.getD [])[j]? = some (some db2) →
      db.Properties = some p → db2.Properties = some p2 →
      p.Locations = l → p2.Locations = l2 →
      ∃ r r2, rs[i]? = some r ∧ rs2[j]? = some r2 ∧ r2.Sla = r.Sla ∧
        r2.AvailabilityZones = r.AvailabilityZones := by
  refine ⟨CosmosDBAnalyzer.zoneRule_perm l l2 hperm, ?_⟩
  intro parseLocation c c2 rg rg2 rs rs2 i j db db2 p p2 hrev hrev2 hdb hdb2 hp hp2 hl hl2
  obtain ⟨id, b, q, v, name, offer, ty, loc, -, -, h3, h4, -, -, -, -, hr⟩ :=
    CosmosDBAnalyzer.Review_record_fields parseLocation c rg rs i db hrev hdb
  obtain ⟨id2, b2, q2, v2, name2, offer2, ty2, loc2, -, -, k3, k4, -, -, -, -, hr2⟩ :=
    CosmosDBAnalyzer.Review_record_fields parseLocation c2 rg2 rs2 j db2 hrev2 hdb2
  rw [hp] at h3
  cases h3
  rw [hp2] at k3
  cases k3
  rw [hl] at h4
  rw [hl2, CosmosDBAnalyzer.zoneRule_perm l l2 hperm, h4] at k4
  cases k4
  exact ⟨_, _, hr, hr2, rfl, rfl⟩

/-- Witness of C17: the sample database with flags true, true, false and the
sample database with flags false, true, true get the same `Sla` and the same
`AvailabilityZones`. -/
theorem cosmos_rule_order_independent_witness :
    CosmosDBAnalyzer.zoneRule ([false, true, true].map sampleLocation) =
      CosmosDBAnalyzer.zoneRule ([true, true, false].map sampleLocation) ∧
    ∃ r r2, sampleRecords[2]? = some r ∧ sampleRecords2[0]? = some r2 ∧ r2.Sla = r.Sla ∧
      r2.AvailabilityZones = r.AvailabilityZones :=
  ⟨(cosmos_rule_order_independent ([true, true, false].map sampleLocation)
      ([false, true, true].map sampleLocation) (by decide)).1,
   (cosmos_rule_order_independent ([true, true, false].map sampleLocation)
      ([false, true, true].map sampleLocation) (by decide)).2
      sampleParseLocation (sampleCosmos (some sampleDatabases) none)
      (sampleCosmos (some sampleDatabases2) none) "rg" "rg" sampleRecords sampleRecords2 2 0
      (sampleAccount "/db/c" "cosmos-db2" [true, true, false])
      (sampleAccountWithEndpoints "/db/e" "cosmos-e" [false, true, true] [sampleEndpoint, none])
      (sampleProperties [true, true, false])
      { DatabaseAccountOfferType := some "Standard"
        Locations := [false, true, true].map sampleLocation
        PrivateEndpointConnections := [sampleEndpoint, none] }
      (by decide) (by decide) (by decide) (by decide) rfl rfl rfl rfl⟩

/-- C18: pointwise monotonicity of the CosmosDB rule.  Let the flags of the
slice `l` be `pre ++ [false] ++ post` and the flags of `l2` be
`pre ++ [true] ++ post`: one location changed from non-zone-redundant to
zone-redundant, the number of locations kept.  Lines 51-67 yield a tier on
both, the tier of `l2` is not below the tier of `l` in the order
"99.99%" < "99.995%" < "99.999%", and `availabilityZones` does not go from
true to false; the same holds between the records of two such databases
whenever the calls of `Review` succeed. -/
theorem cosmos_rule_pointwise_monotone (l l2 : List (Option armcosmos.Location))
    (pre post : List Bool)
    (hl : armcosmos.zoneFlags l = (pre ++ false :: post).map some)
    (hl2 : armcosmos.zoneFlags l2 = (pre ++ true :: post).map some) :
    (∃ v v2 a b, CosmosDBAnalyzer.zoneRule l = .ok v ∧ CosmosDBAnalyzer.zoneRule l2 = .ok v2 ∧
      slaRank v.sla = some a ∧ slaRank v2.sla = some b ∧ a ≤ b ∧
      (v.availabilityZones = true → v2.availabilityZones = true)) ∧
    ∀ (parseLocation : Option String → Option String) (c c2 : CosmosDBAnalyzer)
      (rg rg2 : String) (rs rs2 : List AzureServiceResult) (i j : Nat)
      (db db2 : armcosmos.DatabaseAccountGetResults)
      (p p2 : armcosmos.DatabaseAccountGetProperties),
      CosmosDBAnalyzer.Review parseLocation c rg = .returned (some rs) none →
      CosmosDBAnalyzer.Review parseLocation c2 rg2 = .returned (some rs2) none →
      ((c.listDatabases rg).1.getD [])[i]? = some (some db) →
      ((c2.listDatabases rg2).1.getD [])[j]? = some (some db2) →
      db.Properties = some p → db2.Properties = some p2 →
      p.Locations = l → p2.Locations = l2 →
      ∃ r r2 a b, rs[i]? = some r ∧ rs2[j]? = some r2 ∧
        slaRank r.Sla = some a ∧ slaRank r2.Sla = some b ∧ a ≤ b ∧
        (r.AvailabilityZones = true → r2.AvailabilityZones = true) := by
  have hv := CosmosDBAnalyzer.zoneRule_flags l _ hl
  have hv2 := CosmosDBAnalyzer.zoneRule_flags l2 _ hl2
  obtain ⟨a, b, ha, hb, hab⟩ := CosmosDBAnalyzer.specSla_raise pre post
  have haz : (pre ++ true :: post).any id = true := by simp
  refine ⟨⟨_, _, a, b, hv, hv2, ha, hb, hab, fun _ => haz⟩, ?_⟩
  intro parseLocation c c2 rg rg2 rs rs2 i j db db2 p p2 hrev hrev2 hdb hdb2 hp hp2 hpl hpl2
  obtain ⟨id, b1, q, w, name, offer, ty, loc, -, -, h3, h4, -, -, -, -, hr⟩ :=
    CosmosDBAnalyzer.Review_record_fields parseLocation c rg rs i db hrev hdb
  obtain ⟨id2, b2, q2, w2, name2, offer2, ty2, loc2, -, -, k3, k4, -, -, -, -, hr2⟩ :=
    CosmosDBAnalyzer.Review_record_fields parseLocation c2 rg2 rs2 j db2 hrev2 hdb2
  rw [hp] at h3
  cases h3
  rw [hp2] at k3
  cases k3
  rw [hpl, hv] at h4
  cases h4
  rw [hpl2, hv2] at k4
  cases k4
  exact ⟨_, _, a, b, hr, hr2, ha, hb, hab, fun _ => haz⟩

/-- Witness of C18: from flags true, true, false ("99.995%") to flags
true, true, true ("99.999%"). -/
theorem cosmos_rule_pointwise_monotone_witness :
    (∃ v v2 a b,
      CosmosDBAnalyzer.zoneRule ([true, true, false].map sampleLocation) = .ok v ∧
      CosmosDBAnalyzer.zoneRule ([true, true, true].map sampleLocation) = .ok v2 ∧
      slaRank v.sla = some a ∧ slaRank v2.sla = some b ∧ a ≤ b ∧
      (v.availabilityZones = true → v2.availabilityZones = true)) ∧
    ∃ r r2 a b, sampleRecords[2]? = some r ∧ sampleRecords2[1]? = some r2 ∧
      slaRank r.Sla = some a ∧ slaRank r2.Sla = some b ∧ a ≤ b ∧
      (r.AvailabilityZones = true → r2.AvailabilityZones = true) :=
  ⟨(cosmos_rule_pointwise_monotone ([true, true, false].map sampleLocation)
      ([true, true, true].map sampleLocation) [true, true] [] (by decide) (by decide)).1,
   (cosmos_rule_pointwise_monotone ([true, true, false].map sampleLocation)
      ([true, true, true].map sampleLocation) [true, true] [] (by decide) (by decide)).2
      sampleParseLocation (sampleCosmos (some sampleDatabases) none)
      (sampleCosmos (some sampleDatabases2) none) "rg" "rg" sampleRecords sampleRecords2 2 1
      (sampleAccount "/db/c" "cosmos-db2" [true, true, false])
      (sampleAccount "/db/f" "cosmos-f" [true, true, true])
      (sampleProperties [true, true, false]) (sampleProperties [true, true, true])
      (by decide) (by decide) (by decide) (by decide) rfl rfl rfl rfl⟩

/-- C19: the CosmosDB rule is not monotone in the set of locations.  Appending
a non-zone-redundant location `extra` to any slice `l` with flags `L` makes
lines 51-67 yield a tier that is not "99.999%", and so for the record of a
database with the locations `l ++ [extra]` whenever `Review` succeeds; and
there is a slice at "99.999%" (two zone-redundant locations) that drops to
"99.995%" when the location is appended. -/
theorem cosmos_rule_not_monotone_in_locations (l : List (Option armcosmos.Location))
    (L : List Bool) (extra : armcosmos.Location)
    (hl : armcosmos.zoneFlags l = L.map some)
    (hextra : extra.IsZoneRedundant = some false) :
    (∃ v, CosmosDBAnalyzer.zoneRule (l ++ [some extra]) = .ok v ∧ v.sla ≠ "99.999%") ∧
    (∀ (parseLocation : Option String → Option String) (c : CosmosDBAnalyzer) (rg : String)
      (rs : List AzureServiceResult) (i : Nat) (db : armcosmos.DatabaseAccountGetResults)
      (p : armcosmos.DatabaseAccountGetProperties),
      CosmosDBAnalyzer.Review parseLocation c rg = .returned (some rs) none →
      ((c.listDatabases rg).1.getD [])[i]? = some (some db) →
      db.Properties = some p → p.Locations = l ++ [some extra] →
      ∃ r, rs[i]? = some r ∧ r.Sla ≠ "99.999%") ∧
    (∃ (m : List (Option armcosmos.Location)) (v v2 : ZoneVars),
      CosmosDBAnalyzer.zoneRule m = .ok v ∧ v.sla = "99.999%" ∧
      CosmosDBAnalyzer.zoneRule (m ++ [some extra]) = .ok v2 ∧ v2.sla = "99.995%") := by
  have hflags : ∀ (m : List (Option armcosmos.Location)) (M : List Bool),
      armcosmos.zoneFlags m = M.map some →
      armcosmos.zoneFlags (m ++ [some extra]) = (M ++ [false]).map some := by
    intro m M hm
    rw [armcosmos.zoneFlags_append, hm]
    simp [armcosmos.zoneFlags, hextra]
  have hcap : ∀ (M : List Bool), CosmosDBAnalyzer.specSla (M ++ [false]) ≠ "99.999%" := by
    intro M
    rcases CosmosDBAnalyzer.specSla_rank (M ++ [false]) with h | h | h
    · rw [h.1]; decide
    · rw [h.1]; decide
    · exact absurd (h.2.2 false (by simp)) (by decide)
  have hv := CosmosDBAnalyzer.zoneRule_flags _ _ (hflags l L hl)
  refine ⟨⟨_, hv, hcap L⟩, ?_, ?_⟩
  · intro parseLocation c rg rs i db p hrev hdb hp hpl
    obtain ⟨id, b1, q, w, name, offer, ty, loc, -, -, h3, h4, -, -, -, -, hr⟩ :=
      CosmosDBAnalyzer.Review_record_fields parseLocation c rg rs i db hrev hdb
    rw [hp] at h3
    cases h3
    rw [hpl, hv] at h4
    cases h4
    exact ⟨_, hr, hcap L⟩
  · have hm : armcosmos.zoneFlags [sampleLocation true, sampleLocation true] =
        [true, true].map some := by decide
    refine ⟨[sampleLocation true, sampleLocation true], _, _,
      CosmosDBAnalyzer.zoneRule_flags _ _ hm, by decide,
      CosmosDBAnalyzer.zoneRule_flags _ _ (hflags _ _ hm), ?_⟩
    exact CosmosDBAnalyzer.specSla_mixed ([true, true] ++ [false]) (by decide) (by decide)

/-- Witness of C19: the third sample database is the second one with a
non-zone-redundant location appended. -/
theorem cosmos_rule_not_monotone_in_locations_witness :
    (∃ v, CosmosDBAnalyzer.zoneRule ([sampleLocation true, sampleLocation true] ++
        [some { LocationName := some "westeurope", IsZoneRedundant := some false }]) = .ok v ∧
      v.sla ≠ "99.999%") ∧
    (∃ r, sampleRecords[2]? = some r ∧ r.Sla ≠ "99.999%") ∧
    (∃ (m : List (Option armcosmos.Location)) (v v2 : ZoneVars),
      CosmosDBAnalyzer.zoneRule m = .ok v ∧ v.sla = "99.999%" ∧
      CosmosDBAnalyzer.zoneRule
        (m ++ [some { LocationName := some "westeurope", IsZoneRedundant := some false }]) =
          .ok v2 ∧
      v2.sla = "99.995%") :=
  ⟨(cosmos_rule_not_monotone_in_locations [sampleLocation true, sampleLocation true]
      [true, true] { LocationName := some "westeurope", IsZoneRedundant := some false }
      (by decide) rfl).1,
   (cosmos_rule_not_monotone_in_locations [sampleLocation true, sampleLocation true]
      [true, true] { LocationName := some "westeurope", IsZoneRedundant := some false }
      (by decide) rfl).2.1
      sampleParseLocation (sampleCosmos (some sampleDatabases) none) "rg" sampleRecords 2
      (sampleAccount "/db/c" "cosmos-db2" [true, true, false])
      (sampleProperties [true, true, false]) (by decide) (by decide) rfl rfl,
   (cosmos_rule_not_monotone_in_locations [sampleLocation true, sampleLocation true]
      [true, true] { LocationName := some "westeurope", IsZoneRedundant := some false }
      (by decide) rfl).2.2⟩

/-! ## Independence from the answers of the diagnostics checker -/

theorem collectLoop_rel {α : Type} (R : AzureServiceResult → AzureServiceResult → Prop)
    (body1 body2 : α → Except Abort AzureServiceResult) :
    ∀ (xs : List α) (acc1 acc2 : List AzureServiceResult),
      List.Forall₂ R acc1 acc2 →
      (∀ x ∈ xs, (body1 x = .error .panic ∧ body2 x = .error .panic) ∨
        ∃ r1 r2, body1 x = .ok r1 ∧ body2 x = .ok r2 ∧ R r1 r2) →
      (collectLoop body1 xs acc1 = .panicked ∧ collectLoop body2 xs acc2 = .panicked) ∨
      ∃ rs1 rs2, collectLoop body1 xs acc1 = .returned (some rs1) none ∧
        collectLoop body2 xs acc2 = .returned (some rs2) none ∧ List.Forall₂ R rs1 rs2 := by
  intro xs
  induction xs with
  | nil =>
    intro acc1 acc2 hacc _
    exact Or.inr ⟨acc1, acc2, rfl, rfl, hacc⟩
  | cons x xs ih =>
    intro acc1 acc2 hacc h
    rcases h x (by simp) with ⟨h1, h2⟩ | ⟨r1, r2, h1, h2, hr⟩
    · left
      simp [collectLoop, h1, h2]
    · simp only [collectLoop, h1, h2]
      exact ih _ _ (List.rel_append hacc (List.Forall₂.cons hr List.Forall₂.nil))
        (fun z hz => h z (by simp [hz]))

theorem CosmosDBAnalyzer.reviewDatabase_checker_swap
    (parseLocation : Option String → Option String) (c : CosmosDBAnalyzer)
    (ds1 ds2 : DiagnosticsSettings) (rg : String)
    (y : Option armcosmos.DatabaseAccountGetResults)
    (hsucc : ∀ db id, y = some db → db.ID = some id →
      (ds1.HasDiagnostics id).2 = none ∧ (ds2.HasDiagnostics id).2 = none) :
    (CosmosDBAnalyzer.reviewDatabase parseLocation { c with diagnosticsSettings := ds1 } rg y =
        .error .panic ∧
      CosmosDBAnalyzer.reviewDatabase parseLocation { c with diagnosticsSettings := ds2 } rg y =
        .error .panic) ∨
    ∃ r1 r2,
      CosmosDBAnalyzer.reviewDatabase parseLocation { c with diagnosticsSettings := ds1 } rg y =
        .ok r1 ∧
      CosmosDBAnalyzer.reviewDatabase parseLocation { c with diagnosticsSettings := ds2 } rg y =
        .ok r2 ∧
      r1.toAzureBaseServiceResult = r2.toAzureBaseServiceResult ∧
      r1.AvailabilityZones = r2.AvailabilityZones ∧
      r1.PrivateEndpoints = r2.PrivateEndpoints := by
  cases y with
  | none => left; simp [CosmosDBAnalyzer.reviewDatabase]
  | some db =>
    cases hid : db.ID with
    | none => left; simp [CosmosDBAnalyzer.reviewDatabase, hid]
    | some id =>
      obtain ⟨h1, h2⟩ := hsucc db id rfl hid
      rcases hd1 : ds1.HasDiagnostics id with ⟨b1, e1⟩
      rcases hd2 : ds2.HasDiagnostics id with ⟨b2, e2⟩
      rw [hd1] at h1
      rw [hd2] at h2
      simp only at h1 h2
      subst h1
      subst h2
      cases hp : db.Properties with
      | none => left; simp [CosmosDBAnalyzer.reviewDatabase, hid, hd1, hd2, hp]
      | some p =>
        cases hz : CosmosDBAnalyzer.zoneRule p.Locations with
        | error a =>
          have ha := CosmosDBAnalyzer.zoneRule_error _ a hz
          subst ha
          left
          simp [CosmosDBAnalyzer.reviewDatabase, hid, hd1, hd2, hp, hz]
        | ok v =>
          cases hn : db.Name with
          | none => left; simp [CosmosDBAnalyzer.reviewDatabase, hid, hd1, hd2, hp, hz, hn]
          | some name =>
            cases ho : p.DatabaseAccountOfferType with
            | none =>
              left; simp [CosmosDBAnalyzer.reviewDatabase, hid, hd1, hd2, hp, hz, hn, ho]
            | some offer =>
              cases ht : db.Type_ with
              | none =>
                left
                simp [CosmosDBAnalyzer.reviewDatabase, hid, hd1, hd2, hp, hz, hn, ho, ht]
              | some ty =>
                cases hloc : parseLocation db.Location with
                | none =>
                  left
                  simp [CosmosDBAnalyzer.reviewDatabase, hid, hd1, hd2, hp, hz, hn, ho, ht, hloc]
                | some loc =>
                  right
                  simp [CosmosDBAnalyzer.reviewDatabase, hid, hd1, hd2, hp, hz, hn, ho, ht, hloc]

theorem SignalRAnalyzer.reviewSignalR_checker_swap
    (parseLocation : Option String → Option String) (c : SignalRAnalyzer)
    (ds1 ds2 : DiagnosticsSettings) (rg : String)
    (y : Option armsignalr.ResourceInfo)
    (hsucc : ∀ s id, y = some s → s.ID = some id →
      (ds1.HasDiagnostics id).2 = none ∧ (ds2.HasDiagnostics id).2 = none) :
    (SignalRAnalyzer.reviewSignalR parseLocation { c with diagnosticsSettings := ds1 } rg y =
        .error .panic ∧
      SignalRAnalyzer.reviewSignalR parseLocation { c with diagnosticsSettings := ds2 } rg y =
        .error .panic) ∨
    ∃ r1 r2,
      SignalRAnalyzer.reviewSignalR parseLocation { c with diagnosticsSettings := ds1 } rg y =
        .ok r1 ∧
      SignalRAnalyzer.reviewSignalR parseLocation { c with diagnosticsSettings := ds2 } rg y =
        .ok r2 ∧
      r1.toAzureBaseServiceResult = r2.toAzureBaseServiceResult ∧
      r1.AvailabilityZones = r2.AvailabilityZones ∧
      r1.PrivateEndpoints = r2.PrivateEndpoints := by
  cases y with
  | none => left; simp [SignalRAnalyzer.reviewSignalR]
  | some s =>
    cases hid : s.ID with
    | none => left; simp [SignalRAnalyzer.reviewSignalR, hid]
    | some id =>
      obtain ⟨h1, h2⟩ := hsucc s id rfl hid
      rcases hd1 : ds1.HasDiagnostics id with ⟨b1, e1⟩
      rcases hd2 : ds2.HasDiagnostics id with ⟨b2, e2⟩
      rw [hd1] at h1
      rw [hd2] at h2
      simp only at h1 h2
      subst h1
      subst h2
      cases hs : s.SKU with
      | none => left; simp [SignalRAnalyzer.reviewSignalR, hid, hd1, hd2, hs]
      | some skuRef =>
        cases hk : skuRef.Name with
        | none => left; simp [SignalRAnalyzer.reviewSignalR, hid, hd1, hd2, hs, hk]
        | some sku =>
          cases hn : s.Name with
          | none => left; simp [SignalRAnalyzer.reviewSignalR, hid, hd1, hd2, hs, hk, hn]
          | some name =>
            cases ht : s.Type_ with
            | none =>
              left; simp [SignalRAnalyzer.reviewSignalR, hid, hd1, hd2, hs, hk, hn, ht]
            | some ty =>
              cases hloc : parseLocation s.Location with
              | none =>
                left
                simp [SignalRAnalyzer.reviewSignalR, hid, hd1, hd2, hs, hk, hn, ht, hloc]
              | some loc =>
                cases hp : s.Properties with
                | none =>
                  left
                  simp [SignalRAnalyzer.reviewSignalR, hid, hd1, hd2, hs, hk, hn, ht, hloc, hp]
                | some p =>
                  right
                  simp [SignalRAnalyzer.reviewSignalR, hid, hd1, hd2, hs, hk, hn, ht, hloc, hp]

/-- C20: the diagnostics answers reach `DiagnosticSettings` only.  For both
analyzers, let the listing succeed and let two diagnostics checkers `ds1` and
`ds2` both succeed on the identifier of every listed resource.  Then the two
calls of `Review`, one with each checker, either both panic (on the same
malformed descriptor) or both return records, as many in both, that agree
pairwise on `SubscriptionId`, `ResourceGroup`, `ServiceName`, `Sku`, `Sla`,
`Type`, `Location`, `CAFNaming`, `AvailabilityZones` and `PrivateEndpoints`:
on every field except possibly `DiagnosticSettings`. -/
theorem diagnostics_noninterference :
    (∀ (parseLocation : Option String → Option String) (c : CosmosDBAnalyzer)
        (ds1 ds2 : DiagnosticsSettings) (rg : String),
      (c.listDatabases rg).2 = none →
      (∀ y ∈ (c.listDatabases rg).1.getD [], ∀ db id, y = some db → db.ID = some id →
        (ds1.HasDiagnostics id).2 = none ∧ (ds2.HasDiagnostics id).2 = none) →
      (CosmosDBAnalyzer.Review parseLocation { c with diagnosticsSettings := ds1 } rg =
          .panicked ∧
        CosmosDBAnalyzer.Review parseLocation { c with diagnosticsSettings := ds2 } rg =
          .panicked) ∨
      ∃ rs1 rs2,
        CosmosDBAnalyzer.Review parseLocation { c with diagnosticsSettings := ds1 } rg =
          .returned (some rs1) none ∧
        CosmosDBAnalyzer.Review parseLocation { c with diagnosticsSettings := ds2 } rg =
          .returned (some rs2) none ∧
        List.Forall₂ (fun r1 r2 =>
          r1.SubscriptionId = r2.SubscriptionId ∧ r1.ResourceGroup = r2.ResourceGroup ∧
          r1.ServiceName = r2.ServiceName ∧ r1.Sku = r2.Sku ∧ r1.Sla = r2.Sla ∧
          r1.Type_ = r2.Type_ ∧ r1.Location = r2.Location ∧ r1.CAFNaming = r2.CAFNaming ∧
          r1.AvailabilityZones = r2.AvailabilityZones ∧
          r1.PrivateEndpoints = r2.PrivateEndpoints) rs1 rs2) ∧
    (∀ (parseLocation : Option String → Option String) (c : SignalRAnalyzer)
        (ds1 ds2 : DiagnosticsSettings) (rg : String),
      (c.listSignalR rg).2 = none →
      (∀ y ∈ (c.listSignalR rg).1.getD [], ∀ s id, y = some s → s.ID = some id →
        (ds1.HasDiagnostics id).2 = none ∧ (ds2.HasDiagnostics id).2 = none) →
      (SignalRAnalyzer.Review parseLocation { c with diagnosticsSettings := ds1 } rg =
          .panicked ∧
        SignalRAnalyzer.Review parseLocation { c with diagnosticsSettings := ds2 } rg =
          .panicked) ∨
      ∃ rs1 rs2,
        SignalRAnalyzer.Review parseLocation { c with diagnosticsSettings := ds1 } rg =
          .returned (some rs1) none ∧
        SignalRAnalyzer.Review parseLocation { c with diagnosticsSettings := ds2 } rg =
          .returned (some rs2) none ∧
        List.Forall₂ (fun r1 r2 =>
          r1.SubscriptionId = r2.SubscriptionId ∧ r1.ResourceGroup = r2.ResourceGroup ∧
          r1.ServiceName = r2.ServiceName ∧ r1.Sku = r2.Sku ∧ r1.Sla = r2.Sla ∧
          r1.Type_ = r2.Type_ ∧ r1.Location = r2.Location ∧ r1.CAFNaming = r2.CAFNaming ∧
          r1.AvailabilityZones = r2.AvailabilityZones ∧
          r1.PrivateEndpoints = r2.PrivateEndpoints) rs1 rs2) := by
  have hfields : ∀ r1 r2 : AzureServiceResult,
      (r1.toAzureBaseServiceResult = r2.toAzureBaseServiceResult ∧
        r1.AvailabilityZones = r2.AvailabilityZones ∧
        r1.PrivateEndpoints = r2.PrivateEndpoints) →
      (r1.SubscriptionId = r2.SubscriptionId ∧ r1.ResourceGroup = r2.ResourceGroup ∧
        r1.ServiceName = r2.ServiceName ∧ r1.Sku = r2.Sku ∧ r1.Sla = r2.Sla ∧
        r1.Type_ = r2.Type_ ∧ r1.Location = r2.Location ∧ r1.CAFNaming = r2.CAFNaming ∧
        r1.AvailabilityZones = r2.AvailabilityZones ∧
        r1.PrivateEndpoints = r2.PrivateEndpoints) := by
    rintro r1 r2 ⟨hb, hz, hpe⟩
    refine ⟨?_, ?_, ?_, ?_, ?_, ?_, ?_, ?_, hz, hpe⟩ <;> rw [hb]
  constructor
  · intro parseLocation c ds1 ds2 rg hlist hsucc
    have hl1 : (CosmosDBAnalyzer.listDatabases { c with diagnosticsSettings := ds1 } rg).2
        = none := hlist
    have hl2 : (CosmosDBAnalyzer.listDatabases { c with diagnosticsSettings := ds2 } rg).2
        = none := hlist
    rw [CosmosDBAnalyzer.Review_listing_ok parseLocation _ rg hl1,
      CosmosDBAnalyzer.Review_listing_ok parseLocation _ rg hl2]
    rcases collectLoop_rel _ _ _ ((c.listDatabases rg).1.getD []) [] [] List.Forall₂.nil
      (fun y hy => CosmosDBAnalyzer.reviewDatabase_checker_swap parseLocation c ds1 ds2 rg y
        (hsucc y hy)) with h | ⟨rs1, rs2, h1, h2, hr⟩
    · exact Or.inl h
    · exact Or.inr ⟨rs1, rs2, h1, h2, hr.imp (fun {r1 r2} h => hfields r1 r2 h)⟩
  · intro parseLocation c ds1 ds2 rg hlist hsucc
    have hl1 : (SignalRAnalyzer.listSignalR { c with diagnosticsSettings := ds1 } rg).2
        = none := hlist
    have hl2 : (SignalRAnalyzer.listSignalR { c with diagnosticsSettings := ds2 } rg).2
        = none := hlist
    rw [SignalRAnalyzer.signalrReview_listing_ok parseLocation _ rg hl1,
      SignalRAnalyzer.signalrReview_listing_ok parseLocation _ rg hl2]
    rcases collectLoop_rel _ _ _ ((c.listSignalR rg).1.getD []) [] [] List.Forall₂.nil
      (fun y hy => SignalRAnalyzer.reviewSignalR_checker_swap parseLocation c ds1 ds2 rg y
        (hsucc y hy)) with h | ⟨rs1, rs2, h1, h2, hr⟩
    · exact Or.inl h
    · exact Or.inr ⟨rs1, rs2, h1, h2, hr.imp (fun {r1 r2} h => hfields r1 r2 h)⟩

/-- Witness of C20: `sampleChecker` and `sampleCheckerTrue` both succeed on
every identifier and answer differently; the sample listings are reviewed with
each. -/
theorem diagnostics_noninterference_witness :
    ((CosmosDBAnalyzer.Review sampleParseLocation
          { sampleCosmos (some sampleDatabases2) none with
            diagnosticsSettings := sampleChecker } "rg" = .panicked ∧
        CosmosDBAnalyzer.Review sampleParseLocation
          { sampleCosmos (some sampleDatabases2) none with
            diagnosticsSettings := sampleCheckerTrue } "rg" = .panicked) ∨
      ∃ rs1 rs2,
        CosmosDBAnalyzer.Review sampleParseLocation
          { sampleCosmos (some sampleDatabases2) none with
            diagnosticsSettings := sampleChecker } "rg" = .returned (some rs1) none ∧
        CosmosDBAnalyzer.Review sampleParseLocation
          { sampleCosmos (some sampleDatabases2) none with
            diagnosticsSettings := sampleCheckerTrue } "rg" = .returned (some rs2) none ∧
        List.Forall₂ (fun r1 r2 =>
          r1.SubscriptionId = r2.SubscriptionId ∧ r1.ResourceGroup = r2.ResourceGroup ∧
          r1.ServiceName = r2.ServiceName ∧ r1.Sku = r2.Sku ∧ r1.Sla = r2.Sla ∧
          r1.Type_ = r2.Type_ ∧ r1.Location = r2.Location ∧ r1.CAFNaming = r2.CAFNaming ∧
          r1.AvailabilityZones = r2.AvailabilityZones ∧
          r1.PrivateEndpoints = r2.PrivateEndpoints) rs1 rs2) ∧
    ((SignalRAnalyzer.Review sampleParseLocation
          { sampleSignalRAnalyzer (some sampleSignalRs) none with
            diagnosticsSettings := sampleChecker } "rg" = .panicked ∧
        SignalRAnalyzer.Review sampleParseLocation
          { sampleSignalRAnalyzer (some sampleSignalRs) none with
            diagnosticsSettings := sampleCheckerTrue } "rg" = .panicked) ∨
      ∃ rs1 rs2,
        SignalRAnalyzer.Review sampleParseLocation
          { sampleSignalRAnalyzer (some sampleSignalRs) none with
            diagnosticsSettings := sampleChecker } "rg" = .returned (some rs1) none ∧
        SignalRAnalyzer.Review sampleParseLocation
          { sampleSignalRAnalyzer (some sampleSignalRs) none with
            diagnosticsSettings := sampleCheckerTrue } "rg" = .returned (some rs2) none ∧
        List.Forall₂ (fun r1 r2 =>
          r1.SubscriptionId = r2.SubscriptionId ∧ r1.ResourceGroup = r2.ResourceGroup ∧
          r1.ServiceName = r2.ServiceName ∧ r1.Sku = r2.Sku ∧ r1.Sla = r2.Sla ∧
          r1.Type_ = r2.Type_ ∧ r1.Location = r2.Location ∧ r1.CAFNaming = r2.CAFNaming ∧
          r1.AvailabilityZones = r2.AvailabilityZones ∧
          r1.PrivateEndpoints = r2.PrivateEndpoints) rs1 rs2) :=
  ⟨diagnostics_noninterference.1 sampleParseLocation (sampleCosmos (some sampleDatabases2) none)
      sampleChecker sampleCheckerTrue "rg" (by decide)
      (fun _ _ _ _ _ _ => ⟨rfl, rfl⟩),
   diagnostics_noninterference.2 sampleParseLocation
      (sampleSignalRAnalyzer (some sampleSignalRs) none)
      sampleChecker sampleCheckerTrue "rg" (by decide)
      (fun _ _ _ _ _ _ => ⟨rfl, rfl⟩)⟩
